import Mathlib

set_option linter.unusedVariables false

namespace OCM

/-- A single external command invocation: the argv vector plus the optional working
directory, exactly the two arguments the service passes to the Command Executor
(`executeCommand` of src/backend/src/utils/process). -/
structure Cmd where
  argv : List String
  cwd : Option String := none
deriving DecidableEq

/-- Result of one external command: the captured stdout, or the message of the raised
failure (in the source every caught error is consumed through its `.message` string). -/
abbrev ExecResult := Except String String

/-- Oracle resolving the outcome of the k-th command the service issues during one run.
Indexing by the position in the command trace lets the same command succeed on one
attempt and fail on another, as the retry loops of the source require. -/
abbrev Env := Nat → Cmd → ExecResult

/-- Workspace row: the `Repo` entity of src/backend/src/types/repo as used by
src/backend/src/services/repo.ts.  Fields the claims never touch (lastPulled,
assignedConfigName) are omitted. -/
structure Repo where
  id : Nat
  repoUrl : String
  localPath : String
  branch : Option String
  defaultBranch : String
  cloneStatus : String
  clonedAt : Nat
  isWorktree : Bool
deriving DecidableEq

/-- The `CreateRepoInput` record built at src/backend/src/services/repo.ts:34-45.
`isWorktree` defaults to false, matching the field being absent unless set. -/
structure CreateRepoInput where
  repoUrl : String
  localPath : String
  branch : Option String
  defaultBranch : String
  cloneStatus : String
  clonedAt : Nat
  isWorktree : Bool := false
deriving DecidableEq

/-- Modelled from the spec: the Workspace Record Store (src/backend/src/db/queries is
not under src/).  Spec section 6: `insert(fields) -> Workspace`, point lookups by id and
by (url, branch), a full listing, field updates and delete by id.  `nextId` is the next
store-assigned identifier. -/
structure RepoDB where
  rows : List Repo
  nextId : Nat
deriving DecidableEq

/-- Run-time state of one service call: the persisted store plus the trace of commands
issued so far. -/
structure St where
  db : RepoDB
  trace : List Cmd
deriving DecidableEq

/-- The effect monad of the embedding: reading the command oracle, threading the state,
and failing with a (caught or propagated) error message.  State changes made before a
throw persist, matching the mutable database of the source. -/
def M (α : Type) : Type := Env → St → Except String α × St

instance : Monad M where
  pure a := fun _ s => (Except.ok a, s)
  bind m f := fun env s =>
    match m env s with
    | (Except.ok a, s') => f a env s'
    | (Except.error e, s') => (Except.error e, s')

/-- `throw new Error(msg)`. -/
def throwM {α : Type} (msg : String) : M α := fun _ s => (Except.error msg, s)

/-- `try { body } catch (e) { handler }`: the handler runs from the state the body
reached, matching mutation-before-throw semantics. -/
def tryCatchM {α : Type} (body : M α) (handler : String → M α) : M α := fun env s =>
  match body env s with
  | (Except.ok a, s') => (Except.ok a, s')
  | (Except.error e, s') => handler e env s'

/-- The Command Executor: records the command in the trace and returns the oracle's
answer for this position. -/
def executeCommand (argv : List String) (cwd : Option String := none) : M String := fun env s =>
  (env s.trace.length ⟨argv, cwd⟩, { s with trace := s.trace ++ [⟨argv, cwd⟩] })

/-- Modelled from the spec: the store's (url, branch) row predicate, the branch compared
including the absent case as its own bucket (spec section 3). -/
def repoMatches (url : String) (branch : Option String) (r : Repo) : Bool :=
  r.repoUrl == url && r.branch == branch

/-- Modelled from the spec: `getByUrlAndBranch(url, branch?) -> Workspace?`. -/
def getRepoByUrlAndBranchM (url : String) (branch : Option String) : M (Option Repo) :=
  fun _ s => (Except.ok (s.db.rows.find? (repoMatches url branch)), s)

/-- Modelled from the spec: `getById(id) -> Workspace?`. -/
def getRepoByIdM (i : Nat) : M (Option Repo) :=
  fun _ s => (Except.ok (s.db.rows.find? (fun r => r.id == i)), s)

/-- Modelled from the spec: `listAll() -> sequence of Workspace`. -/
def listReposM : M (List Repo) := fun _ s => (Except.ok s.db.rows, s)

/-- The row the store builds from an insert input, with the store-assigned id. -/
def repoOfInput (i : Nat) (inp : CreateRepoInput) : Repo :=
  { id := i, repoUrl := inp.repoUrl, localPath := inp.localPath, branch := inp.branch,
    defaultBranch := inp.defaultBranch, cloneStatus := inp.cloneStatus,
    clonedAt := inp.clonedAt, isWorktree := inp.isWorktree }

/-- Modelled from the spec: `insert(fields) -> Workspace`, id assigned by the store. -/
def createRepoM (inp : CreateRepoInput) : M Repo := fun _ s =>
  let r := repoOfInput s.db.nextId inp
  (Except.ok r, { s with db := { rows := s.db.rows ++ [r], nextId := s.db.nextId + 1 } })

/-- Pure effect of a status update on the row list. -/
def updStatus (i : Nat) (status : String) (l : List Repo) : List Repo :=
  l.map (fun r => if r.id == i then { r with cloneStatus := status } else r)

/-- Modelled from the spec: `updateStatus(id, status)`. -/
def updateRepoStatusM (i : Nat) (status : String) : M Unit := fun _ s =>
  (Except.ok (), { s with db := { s.db with rows := updStatus i status s.db.rows } })

/-- Modelled from the spec: `delete(id)`. -/
def deleteRepoM (i : Nat) : M Unit := fun _ s =>
  (Except.ok (), { s with db := { s.db with rows := s.db.rows.filter (fun r => r.id != i) } })

/-- JS whitespace test for the characters `trim` strips in the strings this service
handles (ASCII space, newline, tab, carriage return). -/
def isWs (c : Char) : Bool := (c == ' ') || (c == '\n') || (c == '\t') || (c == '\r')

/-- JS `String.prototype.trim` over the model's strings. -/
def trimStr (s : String) : String :=
  ⟨((s.data.dropWhile isWs).reverse.dropWhile isWs).reverse⟩

/-- Split a character list on a separator character (JS `split` with a one-character
separator). -/
def splitOnChar (c : Char) : List Char → List (List Char)
  | [] => [[]]
  | a :: rest =>
    let r := splitOnChar c rest
    if a == c then [] :: r
    else
      match r with
      | [] => [[a]]
      | h :: t => (a :: h) :: t

/-- JS `s.split(c)` for a one-character separator. -/
def splitStr (s : String) (c : Char) : List String :=
  (splitOnChar c s.data).map (fun l => ⟨l⟩)

/-- Strip `pat` from the front of `l`, or fail. -/
def dropPrefixCh : List Char → List Char → Option (List Char)
  | [], l => some l
  | _ :: _, [] => none
  | p :: ps, a :: as => if a == p then dropPrefixCh ps as else none

/-- Replace the first occurrence of `pat`, as JS `String.prototype.replace` with a
string pattern does; `none` when the pattern does not occur. -/
def replaceFirstAux (pat repl : List Char) : List Char → Option (List Char)
  | [] => none
  | a :: as =>
    match dropPrefixCh pat (a :: as) with
    | some rest => some (repl ++ rest)
    | none =>
      match replaceFirstAux pat repl as with
      | some r => some (a :: r)
      | none => none

/-- JS `s.replace(pat, repl)` (first occurrence only; `s` unchanged when absent). -/
def replaceFirst (s pat repl : String) : String :=
  match replaceFirstAux pat.data repl.data s.data with
  | some l => ⟨l⟩
  | none => s

/-- Substring containment over character lists (JS `String.prototype.includes`). -/
def containsCh (pat : List Char) : List Char → Bool
  | [] => pat.isEmpty
  | a :: as => (dropPrefixCh pat (a :: as)).isSome || containsCh pat as

/-- JS `s.includes(pat)`. -/
def strContains (s pat : String) : Bool := containsCh pat.data s.data

/-- JS `s.startsWith(pat)`. -/
def strStartsWith (s pat : String) : Bool := (dropPrefixCh pat.data s.data).isSome

/-- JS truthiness of an optional string: absent and empty are both falsy. -/
def optTruthy : Option String → Bool
  | some s => !(s == "")
  | none => false

/-- External configuration of the service: the workspaces root (`getReposPath()` of
src/backend/src/config), the Credential Provider token (modelled from the spec:
SettingsService is not part of the core), and the clock value used for `Date.now()`. -/
structure Config where
  reposPath : String
  gitToken : Option String
  now : Nat

/-- `path.resolve(root, name)`: modelled as a plain join; the claims only compare these
paths for equality, never normalise them. -/
def pathResolve (root name : String) : String := root ++ "/" ++ name

/-- `path.resolve(p)` on a single path: modelled as the identity (absolute-path
normalisation is irrelevant to the claims). -/
def resolve1 (p : String) : String := p

/-- `branch.replace(/[\\/]/g, '-')` at src/backend/src/services/repo.ts:19. -/
def sanitizeBranch (b : String) : String :=
  ⟨b.data.map (fun c => if (c == '/') || (c == '\\') then '-' else c)⟩

/-- True when `s` ends with ".git". -/
def endsWithDotGit (s : String) : Bool :=
  (dropPrefixCh (".git".data.reverse) s.data.reverse).isSome

/-- Strip a ".git" suffix when a nonempty stem remains, as the non-greedy group of the
regex at src/backend/src/services/repo.ts:415 does. -/
def stripDotGit (s : String) : String :=
  if endsWithDotGit s && decide (s.data.length > 4) then ⟨s.data.take (s.data.length - 4)⟩ else s

/-- `extractRepoName` (src/backend/src/services/repo.ts:414-417): the last URL path
segment with ".git" stripped; `repo-${Date.now()}` when the regex cannot match (no
slash, or the URL ends in a slash). -/
def extractRepoName (now : Nat) (url : String) : String :=
  let segs := splitStr url '/'
  let lastSeg := segs.getLastD ""
  if decide (segs.length ≤ 1) || (lastSeg == "") then "repo-" ++ toString now
  else stripDotGit lastSeg

/-- `getCurrentBranch` (src/backend/src/services/repo.ts:231-240): short HEAD name,
trimmed; `null` on any git failure, never a thrown error. -/
def getCurrentBranch (cfg : Config) (repo : Repo) : M (Option String) :=
  tryCatchM
    (do
      let repoPath := pathResolve cfg.reposPath repo.localPath
      let currentBranch ← executeCommand ["git", "-C", repoPath, "rev-parse", "--abbrev-ref", "HEAD"]
      pure (some (trimStr currentBranch)))
    (fun _ => pure none)

/-- `switchBranch` (src/backend/src/services/repo.ts:271-316): fetch, probe the local
then the remote ref, and check out accordingly. -/
def switchBranch (cfg : Config) (repoId : Nat) (branch : String) : M Unit := do
  let found ← getRepoByIdM repoId
  match found with
  | none => throwM ("Repo not found: " ++ toString repoId)
  | some repo =>
    tryCatchM
      (do
        let repoPath := pathResolve cfg.reposPath repo.localPath
        _ ← executeCommand ["git", "-C", repoPath, "fetch", "--all"]
        let localBranchExists ← tryCatchM
          (do
            _ ← executeCommand ["git", "-C", repoPath, "rev-parse", "--verify", "refs/heads/" ++ branch]
            pure true)
          (fun _ => pure false)
        let remoteBranchExists ← tryCatchM
          (do
            _ ← executeCommand ["git", "-C", repoPath, "rev-parse", "--verify", "refs/remotes/origin/" ++ branch]
            pure true)
          (fun _ => pure false)
        if localBranchExists then do
          _ ← executeCommand ["git", "-C", repoPath, "checkout", branch]
          pure ()
        else if remoteBranchExists then do
          _ ← executeCommand ["git", "-C", repoPath, "checkout", "-b", branch, "origin/" ++ branch]
          pure ()
        else do
          _ ← executeCommand ["git", "-C", repoPath, "checkout", "-b", branch]
          pure ())
      (fun e => throwM e)

/-- The worktree-removal cascade of `deleteRepoFiles` (src/backend/src/services/repo.ts:
356-380): graceful remove, then force, then prune-and-force, continuing on total
failure. -/
def worktreeRemovalBlock (cfg : Config) (baseRepoPath fullPath : String) : M Unit :=
  tryCatchM
    (do
      _ ← executeCommand ["git", "-C", baseRepoPath, "worktree", "remove", fullPath]
      pure ())
    (fun _ =>
      tryCatchM
        (do
          _ ← executeCommand ["git", "-C", baseRepoPath, "worktree", "remove", "--force", fullPath]
          pure ())
        (fun _ =>
          tryCatchM
            (do
              _ ← executeCommand ["git", "-C", baseRepoPath, "worktree", "prune"]
              _ ← executeCommand ["git", "-C", baseRepoPath, "worktree", "remove", "--force", fullPath]
              pure ())
            (fun _ => pure ())))

/-- `repo.localPath.split('/').pop() || repo.localPath`
(src/backend/src/services/repo.ts:346). -/
def lastPathSegment (p : String) : String :=
  let seg := (splitStr p '/').getLastD ""
  if seg == "" then p else seg

/-- `deleteRepoFiles` (src/backend/src/services/repo.ts:336-412): git-level worktree
removal when applicable, recursive directory removal, post-removal existence check that
throws when the directory survives, best-effort prune, and only then the row delete. -/
def deleteRepoFiles (cfg : Config) (repoId : Nat) : M Unit := do
  let found ← getRepoByIdM repoId
  match found with
  | none => throwM ("Repo not found: " ++ toString repoId)
  | some repo =>
    tryCatchM
      (do
        let dirName := lastPathSegment repo.localPath
        let fullPath := pathResolve cfg.reposPath dirName
        if repo.isWorktree && optTruthy repo.branch then
          worktreeRemovalBlock cfg (pathResolve cfg.reposPath (extractRepoName cfg.now repo.repoUrl)) fullPath
        else pure ()
        _ ← executeCommand ["rm", "-rf", dirName] (some cfg.reposPath)
        let checkExists ← executeCommand
          ["bash", "-c", "test -d " ++ dirName ++ " && echo exists || echo deleted"] (some cfg.reposPath)
        if trimStr checkExists == "exists" then
          throwM ("Failed to delete workspace directory: " ++ dirName)
        else pure ()
        if repo.isWorktree && optTruthy repo.branch then
          tryCatchM
            (do
              _ ← executeCommand
                ["git", "-C", pathResolve cfg.reposPath (extractRepoName cfg.now repo.repoUrl), "worktree", "prune"]
              pure ())
            (fun _ => pure ())
        else pure ()
        deleteRepoM repoId)
      (fun e => throwM e)

/-- The per-orphan removal loop of `cleanupOrphanedDirectories`
(src/backend/src/services/repo.ts:439-446): one `rm -rf` per orphan, individual
failures logged and skipped. -/
def removeOrphans (cfg : Config) : List String → M Unit
  | [] => pure ()
  | d :: rest => do
    tryCatchM
      (do
        _ ← executeCommand ["rm", "-rf", d] (some cfg.reposPath)
        pure ())
      (fun _ => pure ())
    removeOrphans cfg rest

/-- `cleanupOrphanedDirectories` (src/backend/src/services/repo.ts:419-451): list the
workspaces root, keep entries whose trimmed name is nonempty, compute the tracked
directory names from the store, and best-effort remove the rest.  The whole operation
never throws. -/
def cleanupOrphanedDirectories (cfg : Config) : M Unit :=
  tryCatchM
    (do
      let dirResult ← tryCatchM (executeCommand ["ls", "-1"] (some cfg.reposPath)) (fun _ => pure "")
      let directories := (splitStr dirResult '\n').filter (fun d => !(trimStr d == ""))
      if directories.length == 0 then pure ()
      else do
        let allRepos ← listReposM
        let trackedPaths := allRepos.map (fun r => (splitStr r.localPath '/').getLastD "")
        let orphanedDirs := directories.filter (fun d => !(trackedPaths.contains d))
        if decide (orphanedDirs.length > 0) then removeOrphans cfg orphanedDirs
        else pure ())
    (fun _ => pure ())

/-- `pruneWorktreeReferences` (src/backend/src/services/repo.ts:474-482): best-effort
prune, never throws. -/
def pruneWorktreeReferences (baseRepoPath : String) : M Unit :=
  tryCatchM
    (do
      _ ← executeCommand ["git", "-C", baseRepoPath, "worktree", "prune"]
      pure ())
    (fun _ => pure ())

/-- The line scan of `cleanupStaleWorktree` (src/backend/src/services/repo.ts:491-502):
force-remove at the first line mentioning the worktree path, otherwise prune. -/
def cleanupLines (baseRepoPath worktreePath : String) : List String → M Bool
  | [] => do
    pruneWorktreeReferences baseRepoPath
    pure true
  | line :: rest =>
    if strContains line worktreePath then do
      _ ← executeCommand ["git", "-C", baseRepoPath, "worktree", "remove", "--force", worktreePath]
      pure true
    else cleanupLines baseRepoPath worktreePath rest

/-- `cleanupStaleWorktree` (src/backend/src/services/repo.ts:484-507): returns false,
never throws, when any step of the scan fails. -/
def cleanupStaleWorktree (baseRepoPath worktreePath : String) : M Bool :=
  tryCatchM
    (do
      let worktreeList ← executeCommand ["git", "-C", baseRepoPath, "worktree", "list", "--porcelain"]
      let lines := (splitStr worktreeList '\n').filter (fun l => !(trimStr l == ""))
      cleanupLines baseRepoPath worktreePath lines)
    (fun _ => pure false)

/-- `maxRetries` of `createWorktreeSafely` (src/backend/src/services/repo.ts:575). -/
def maxRetries : Nat := 3

/-- The retry loop of `createWorktreeSafely` (src/backend/src/services/repo.ts:577-612),
unrolled over the list of remaining attempt numbers: both the `continue` and the
fall-through to the next iteration are the recursive call, and the loop running out of
attempts is the `[]` case returning normally. -/
def worktreeLoop (baseRepoPath worktreePath branch : String) (branchExists : Bool) : List Nat → M Unit
  | [] => pure ()
  | attempt :: rest =>
    tryCatchM
      (do
        _ ← (if branchExists then
              executeCommand ["git", "-C", baseRepoPath, "worktree", "add", worktreePath, branch]
            else
              executeCommand ["git", "-C", baseRepoPath, "worktree", "add", "-b", branch, worktreePath])
        pure ())
      (fun errorMessage =>
        let isLastAttempt := attempt == maxRetries
        if strContains errorMessage "already used by worktree" then do
          let cleaned ← cleanupStaleWorktree baseRepoPath worktreePath
          if !cleaned && isLastAttempt then
            throwM ("Failed to create worktree: \x27" ++ branch ++
              "\x27 is already used by a worktree and cleanup failed. Manual intervention may be required.")
          else worktreeLoop baseRepoPath worktreePath branch branchExists rest
        else if isLastAttempt then
          throwM ("Failed to create worktree after " ++ toString maxRetries ++ " attempts: " ++ errorMessage)
        else worktreeLoop baseRepoPath worktreePath branch branchExists rest)

/-- The branch-existence probe and retry loop closing `createWorktreeSafely`
(src/backend/src/services/repo.ts:562-612): the code run after the base repository has,
if necessary, been switched off the requested branch. -/
def worktreePhase2 (baseRepoPath worktreePath branch : String) : M Unit := do
  let branchExists ← tryCatchM
    (do
      _ ← executeCommand ["git", "-C", baseRepoPath, "rev-parse", "--verify", "refs/heads/" ++ branch]
      pure true)
    (fun _ =>
      tryCatchM
        (do
          _ ← executeCommand ["git", "-C", baseRepoPath, "rev-parse", "--verify", "refs/remotes/origin/" ++ branch]
          pure true)
        (fun _ => pure false))
  worktreeLoop baseRepoPath worktreePath branch branchExists [1, 2, 3]

/-- `createWorktreeSafely` (src/backend/src/services/repo.ts:546-613): free the branch
from the base repository's primary working directory if needed, then probe whether the
branch exists locally or remotely and run the bounded retry loop. -/
def createWorktreeSafely (baseRepoPath worktreePath branch : String) : M Unit := do
  let currentBranch ← executeCommand ["git", "-C", baseRepoPath, "rev-parse", "--abbrev-ref", "HEAD"]
  if trimStr currentBranch == branch then do
    let defaultBranch ← tryCatchM
      (do
        let r ← executeCommand ["git", "-C", baseRepoPath, "rev-parse", "--abbrev-ref", "origin/HEAD"]
        pure (replaceFirst (trimStr r) "origin/" ""))
      (fun _ => pure "main")
    tryCatchM
      (do
        _ ← executeCommand ["git", "-C", baseRepoPath, "checkout", defaultBranch]
        pure ())
      (fun _ => do
        _ ← executeCommand ["git", "-C", baseRepoPath, "checkout", "main"]
        pure ())
  else pure ()
  worktreePhase2 baseRepoPath worktreePath branch

/-- `shouldUseWorktree` (src/backend/src/services/repo.ts:32): worktree requested, a
truthy branch, and the base clone directory reported present. -/
def shouldUseWorktreeFlag (useWorktree : Bool) (branch : Option String) (baseRepoExists : String) : Bool :=
  useWorktree && optTruthy branch && (trimStr baseRepoExists == "exists")

/-- The `CreateRepoInput` construction of src/backend/src/services/repo.ts:34-45:
`branch || undefined`, `branch || 'main'`, status `cloning`, `Date.now()`, and the
`isWorktree` flag set exactly when the worktree mode was resolved. -/
def mkCreateRepoInput (repoUrl localPath : String) (branch : Option String)
    (shouldUseWorktree : Bool) (now : Nat) : CreateRepoInput :=
  { repoUrl := repoUrl
    localPath := localPath
    branch := if optTruthy branch then branch else none
    defaultBranch := if optTruthy branch then branch.getD "" else "main"
    cloneStatus := "cloning"
    clonedAt := now
    isWorktree := shouldUseWorktree }

/-- The clone URL with the Credential Provider token injected
(src/backend/src/services/repo.ts:54-56). -/
def mkCloneUrl (cfg : Config) (repoUrl : String) : String :=
  if optTruthy cfg.gitToken && strStartsWith repoUrl "https://github.com" then
    replaceFirst repoUrl "https://" ("https://" ++ cfg.gitToken.getD "" ++ "@")
  else repoUrl

/-- The worktree branch of `cloneRepo` (src/backend/src/services/repo.ts:58-77): fetch
in the base clone, create the worktree safely, and verify the directory exists.  `none`
means control falls through to the common `ready` epilogue. -/
def worktreeArm (cfg : Config) (branch repoName worktreeDirName : String) : M (Option Repo) := do
  let baseRepoPath := pathResolve cfg.reposPath repoName
  let worktreePath := pathResolve cfg.reposPath worktreeDirName
  _ ← executeCommand ["git", "-C", baseRepoPath, "fetch", "--all"]
  createWorktreeSafely baseRepoPath worktreePath branch
  let worktreeVerified ← tryCatchM
    (do
      _ ← executeCommand ["test", "-d", worktreePath]
      pure true)
    (fun _ => pure false)
  if !worktreeVerified then throwM ("Worktree directory was not created at: " ++ worktreePath)
  else pure ()
  pure none

/-- The occupied-directory removal with post-removal verification, shared by
src/backend/src/services/repo.ts:81-94 and 171-184 (the two copies differ only in the
working directory passed to the existence test). -/
def removeIfExists (cfg : Config) (worktreeDirName testCwd : String) : M Unit := do
  let worktreeExists ← executeCommand
    ["bash", "-c", "test -d " ++ worktreeDirName ++ " && echo exists || echo missing"] (some testCwd)
  if trimStr worktreeExists == "exists" then
    tryCatchM
      (do
        _ ← executeCommand ["rm", "-rf", worktreeDirName] (some cfg.reposPath)
        let verifyRemoved ← executeCommand
          ["bash", "-c", "test -d " ++ worktreeDirName ++ " && echo exists || echo removed"] (some cfg.reposPath)
        if trimStr verifyRemoved == "exists" then
          throwM ("Failed to remove existing directory: " ++ worktreeDirName)
        else pure ())
      (fun _ => throwM ("Cannot clone: directory " ++ worktreeDirName ++ " exists and could not be removed"))
  else pure ()

/-- The branch-missing clone fallback shared by src/backend/src/services/repo.ts:105-119
and 199-214: clone the default branch, then create or check out the requested branch
locally. -/
def cloneDefaultAndBranch (cfg : Config) (branch cloneUrl worktreeDirName : String) : M Unit := do
  _ ← executeCommand ["git", "clone", cloneUrl, worktreeDirName] (some cfg.reposPath)
  let localBranchExists ← tryCatchM
    (do
      _ ← executeCommand
        ["git", "-C", pathResolve cfg.reposPath worktreeDirName, "rev-parse", "--verify", "refs/heads/" ++ branch]
      pure "exists")
    (fun _ => pure "missing")
  if trimStr localBranchExists == "missing" then do
    _ ← executeCommand ["git", "-C", pathResolve cfg.reposPath worktreeDirName, "checkout", "-b", branch]
    pure ()
  else do
    _ ← executeCommand ["git", "-C", pathResolve cfg.reposPath worktreeDirName, "checkout", branch]
    pure ()

/-- The separate-branch-clone branch of `cloneRepo` (src/backend/src/services/repo.ts:
78-120), guarded by `branch && baseRepoExists === 'exists' && useWorktree`. -/
def separateCloneArm (cfg : Config) (branch cloneUrl worktreeDirName : String) : M (Option Repo) := do
  removeIfExists cfg worktreeDirName (resolve1 cfg.reposPath)
  tryCatchM
    (do
      _ ← executeCommand ["git", "clone", "-b", branch, cloneUrl, worktreeDirName] (some cfg.reposPath)
      pure ())
    (fun e =>
      if strContains e "destination path" && strContains e "already exists" then
        throwM ("Workspace directory " ++ worktreeDirName ++
          " already exists. Please delete it manually or contact support.")
      else cloneDefaultAndBranch cfg branch cloneUrl worktreeDirName)
  pure none

/-- The fresh-clone tail of the final branch of `cloneRepo`
(src/backend/src/services/repo.ts:169-218). -/
def freshClonePart (cfg : Config) (branch : Option String) (cloneUrl worktreeDirName : String) : M (Option Repo) := do
  removeIfExists cfg worktreeDirName cfg.reposPath
  tryCatchM
    (do
      _ ← executeCommand
        (if optTruthy branch then ["git", "clone", "-b", branch.getD "", cloneUrl, worktreeDirName]
         else ["git", "clone", cloneUrl, worktreeDirName]) (some cfg.reposPath)
      pure ())
    (fun e =>
      if strContains e "destination path" && strContains e "already exists" then
        throwM ("Workspace directory " ++ worktreeDirName ++
          " already exists. Please delete it manually or contact support.")
      else if optTruthy branch && (strContains e "Remote branch" || strContains e "not found") then
        cloneDefaultAndBranch cfg (branch.getD "") cloneUrl worktreeDirName
      else throwM e)
  pure none

/-- The in-base branch switch of the valid-existing-repository path
(src/backend/src/services/repo.ts:129-159): fetch, probe the remote then the local ref,
and check out accordingly. -/
def branchSwitchInBase (cfg : Config) (baseRepoDirName branch : String) : M Unit := do
  _ ← executeCommand ["git", "-C", pathResolve cfg.reposPath baseRepoDirName, "fetch", "--all"]
  let remoteBranchExists ← tryCatchM
    (do
      _ ← executeCommand
        ["git", "-C", pathResolve cfg.reposPath baseRepoDirName, "rev-parse", "--verify",
         "refs/remotes/origin/" ++ branch]
      pure true)
    (fun _ => pure false)
  let localBranchExists ← tryCatchM
    (do
      _ ← executeCommand
        ["git", "-C", pathResolve cfg.reposPath baseRepoDirName, "rev-parse", "--verify",
         "refs/heads/" ++ branch]
      pure true)
    (fun _ => pure false)
  if localBranchExists then do
    _ ← executeCommand ["git", "-C", pathResolve cfg.reposPath baseRepoDirName, "checkout", branch]
    pure ()
  else if remoteBranchExists then do
    _ ← executeCommand
      ["git", "-C", pathResolve cfg.reposPath baseRepoDirName, "checkout", "-b", branch, "origin/" ++ branch]
    pure ()
  else do
    _ ← executeCommand ["git", "-C", pathResolve cfg.reposPath baseRepoDirName, "checkout", "-b", branch]
    pure ()

/-- The final `else` branch of `cloneRepo` (src/backend/src/services/repo.ts:121-219):
reuse a valid existing base directory (returning early after marking the row ready),
or delete an invalid one and fall through to the fresh clone.  The early `return` of the
source is the `some` result, consumed by `cloneRepoBody`. -/
def defaultCloneArm (cfg : Config) (branch : Option String)
    (cloneUrl baseRepoDirName worktreeDirName baseRepoExists : String) (repo : Repo) : M (Option Repo) := do
  if trimStr baseRepoExists == "exists" then do
    let isValidRepo ← tryCatchM
      (do
        _ ← executeCommand
          ["git", "-C", pathResolve cfg.reposPath baseRepoDirName, "rev-parse", "--git-dir"]
          (some (resolve1 cfg.reposPath))
        pure "valid")
      (fun _ => pure "invalid")
    if trimStr isValidRepo == "valid" then do
      if optTruthy branch then branchSwitchInBase cfg baseRepoDirName (branch.getD "")
      else pure ()
      updateRepoStatusM repo.id "ready"
      pure (some { repo with cloneStatus := "ready" })
    else do
      _ ← executeCommand ["rm", "-rf", baseRepoDirName] (some cfg.reposPath)
      freshClonePart cfg branch cloneUrl worktreeDirName
  else freshClonePart cfg branch cloneUrl worktreeDirName

/-- The three-way dispatch of `cloneRepo` (src/backend/src/services/repo.ts:58, 78,
121), with the source's guard expressions kept verbatim. -/
def armDispatch (useWorktree : Bool) (branch : Option String) (baseRepoExists : String)
    (armWorktree armSeparate armDefault : M (Option Repo)) : M (Option Repo) :=
  if shouldUseWorktreeFlag useWorktree branch baseRepoExists then armWorktree
  else if optTruthy branch && (trimStr baseRepoExists == "exists") && useWorktree then armSeparate
  else armDefault

/-- The body of the provisioning `try` block (src/backend/src/services/repo.ts:49-223):
credential lookup, the three-way dispatch, and — unless the default arm returned
early — the `ready` status update and return. -/
def cloneRepoBody (cfg : Config) (repoUrl : String) (branch : Option String) (useWorktree : Bool)
    (repoName worktreeDirName baseRepoExists : String) (repo : Repo) : M Repo := do
  let cloneUrl := mkCloneUrl cfg repoUrl
  let res ← armDispatch useWorktree branch baseRepoExists
    (worktreeArm cfg (branch.getD "") repoName worktreeDirName)
    (separateCloneArm cfg (branch.getD "") cloneUrl worktreeDirName)
    (defaultCloneArm cfg branch cloneUrl repoName worktreeDirName baseRepoExists repo)
  match res with
  | some r => pure r
  | none => do
    updateRepoStatusM repo.id "ready"
    pure { repo with cloneStatus := "ready" }

/-- `cloneRepo` (src/backend/src/services/repo.ts:11-229): name computation, the
idempotent short-circuit on an existing row, the base-directory probe, the `cloning` row
insert, the dispatched provisioning work, and the compensating delete on failure.
`ensureDirectoryExists` is a generic file utility with no effect on the store or on any
command the claims mention, and is modelled as a no-op. -/
def cloneRepo (cfg : Config) (repoUrl : String) (branch : Option String) (useWorktree : Bool) : M Repo := do
  let repoName := extractRepoName cfg.now repoUrl
  let worktreeDirName :=
    if optTruthy branch && useWorktree then repoName ++ "-" ++ sanitizeBranch (branch.getD "")
    else repoName
  let existing ← getRepoByUrlAndBranchM repoUrl branch
  match existing with
  | some r => pure r
  | none => do
    let baseRepoExists ← executeCommand
      ["bash", "-c", "test -d " ++ repoName ++ " && echo exists || echo missing"]
      (some (resolve1 cfg.reposPath))
    let repo ← createRepoM
      (mkCreateRepoInput repoUrl worktreeDirName branch
        (shouldUseWorktreeFlag useWorktree branch baseRepoExists) cfg.now)
    tryCatchM
      (cloneRepoBody cfg repoUrl branch useWorktree repoName worktreeDirName baseRepoExists repo)
      (fun e => do
        deleteRepoM repo.id
        throwM e)

/-- True when the command result is a success. -/
def isOkE {α : Type} : Except String α → Bool
  | Except.ok _ => true
  | Except.error _ => false

/-- True when the command result is a failure. -/
def isErr {α : Type} : Except String α → Bool
  | Except.ok _ => false
  | Except.error _ => true

/-- A failed result whose message reports the worktree conflict of the retry loop. -/
def isConflictE : ExecResult → Bool
  | Except.ok _ => false
  | Except.error e => strContains e "already used by worktree"

/-- Success, or the worktree-conflict failure. -/
def okOrConflictE (r : ExecResult) : Bool := isOkE r || isConflictE r

/-- Recognise a `git -C base worktree add …` invocation (either form of
src/backend/src/services/repo.ts:582 and 585). -/
def isWorktreeAddCmd (baseRepoPath : String) (c : Cmd) : Bool :=
  match c.argv with
  | "git" :: "-C" :: b :: "worktree" :: "add" :: _ => b == baseRepoPath
  | _ => false

/-- Recognise a `git -C base checkout target` invocation. -/
def isCheckoutTo (baseRepoPath target : String) (c : Cmd) : Bool :=
  match c.argv with
  | ["git", "-C", b, "checkout", t] => b == baseRepoPath && t == target
  | _ => false

/-- The oracle answers of the worktree-add commands of a trace, in order, with the
absolute position of each command passed to the oracle. -/
def addResultsAux (env : Env) (baseRepoPath : String) : Nat → List Cmd → List ExecResult
  | _, [] => []
  | k, c :: cs =>
    if isWorktreeAddCmd baseRepoPath c then
      env k c :: addResultsAux env baseRepoPath (k + 1) cs
    else addResultsAux env baseRepoPath (k + 1) cs

/-- The oracle answers of the worktree-add commands of a full run trace. -/
def addResults (env : Env) (baseRepoPath : String) (tr : List Cmd) : List ExecResult :=
  addResultsAux env baseRepoPath 0 tr

/-- The HEAD short-name probe opening `createWorktreeSafely`. -/
def headCmd (baseRepoPath : String) : Cmd :=
  ⟨["git", "-C", baseRepoPath, "rev-parse", "--abbrev-ref", "HEAD"], none⟩

/-- The `origin/HEAD` default-branch resolution probe. -/
def originHeadCmd (baseRepoPath : String) : Cmd :=
  ⟨["git", "-C", baseRepoPath, "rev-parse", "--abbrev-ref", "origin/HEAD"], none⟩

/-- The default branch `createWorktreeSafely` resolves when the requested branch must be
freed: the trimmed `origin/HEAD` answer with the `origin/` prefix removed, or `main`
when the probe (always the second command of the run) fails. -/
def resolvedDefault (env : Env) (baseRepoPath : String) : String :=
  match env 1 (originHeadCmd baseRepoPath) with
  | Except.ok r => replaceFirst (trimStr r) "origin/" ""
  | Except.error _ => "main"

/-- Every worktree-add in the trace is preceded by an earlier command that is a
successful checkout of the resolved default branch (or of the `main` fallback) in the
base repository. -/
def switchBeforeAdd (env : Env) (baseRepoPath d : String) (tr : List Cmd) : Prop :=
  ∀ k c, tr.get? k = some c → isWorktreeAddCmd baseRepoPath c = true →
    ∃ i c2, i < k ∧ tr.get? i = some c2 ∧
      (isCheckoutTo baseRepoPath d c2 || isCheckoutTo baseRepoPath "main" c2) = true ∧
      isOkE (env i c2) = true

/-- A computation that never changes the persisted store. -/
def DbNeutral {α : Type} (m : M α) : Prop := ∀ env s, ((m env s).2).db = s.db

/-- A computation that never produces an early-return value. -/
def NeverSome (m : M (Option Repo)) : Prop :=
  ∀ env s v, (m env s).1 ≠ Except.ok (some v)

/-- A computation that only appends to the command trace. -/
def TraceMono {α : Type} (m : M α) : Prop :=
  ∀ env s, ∃ t, ((m env s).2).trace = s.trace ++ t

/-- The store footprint of a provisioning arm operating on the freshly inserted row
`i`: the id counter is untouched, the rows are either unchanged or exactly marked
ready at `i`, and an early return both yields the ready row and marks the store. -/
def ArmSpec (i : Nat) (ready : Repo) (m : M (Option Repo)) : Prop :=
  ∀ env s,
    ((m env s).2).db.nextId = s.db.nextId ∧
    (((m env s).2).db.rows = s.db.rows ∨ ((m env s).2).db.rows = updStatus i "ready" s.db.rows) ∧
    (∀ v, (m env s).1 = Except.ok (some v) →
      v = ready ∧ ((m env s).2).db.rows = updStatus i "ready" s.db.rows)

/-- The store footprint of the whole provisioning `try` body. -/
def BodySpec (i : Nat) (ready : Repo) (m : M Repo) : Prop :=
  ∀ env s,
    ((m env s).2).db.nextId = s.db.nextId ∧
    (((m env s).2).db.rows = s.db.rows ∨ ((m env s).2).db.rows = updStatus i "ready" s.db.rows) ∧
    (∀ v, (m env s).1 = Except.ok v →
      v = ready ∧ ((m env s).2).db.rows = updStatus i "ready" s.db.rows)

/-- The conclusion of the amended retry-loop claim, over the oracle answers of the
worktree-add attempts of a run: at most three attempts; a normal return only with a
final attempt that succeeded or hit the worktree conflict; and an error thrown while the
final attempt hit the conflict quotes the branch name. -/
def LoopConcl (env : Env) (baseRepoPath branch : String) (out : Except String Unit)
    (outs : List ExecResult) : Prop :=
  outs.length ≤ 3 ∧
  (out = Except.ok () → (outs = [] ∨ okOrConflictE (outs.getLastD (Except.ok "")) = true)) ∧
  (∀ e, out = Except.error e → isConflictE (outs.getLastD (Except.ok "")) = true →
    strContains e ("\x27" ++ branch ++ "\x27") = true)

/-- The inductive contract of the retry loop over the remaining attempt list: the store
untouched, only appended trace, at most one add per remaining attempt, at least one add
when attempts remain, a normal return only after a final add that succeeded or hit the
worktree conflict, and a thrown error naming the quoted branch whenever the final add
hit the conflict. -/
def LoopSpecStmt (baseRepoPath worktreePath branch : String) (branchExists : Bool)
    (atts : List Nat) : Prop :=
  ∀ env s, ∃ tl out,
    worktreeLoop baseRepoPath worktreePath branch branchExists atts env s =
      (out, { s with trace := s.trace ++ tl }) ∧
    (addResultsAux env baseRepoPath s.trace.length tl).length ≤ atts.length ∧
    (atts ≠ [] → addResultsAux env baseRepoPath s.trace.length tl ≠ []) ∧
    (out = Except.ok () →
      (addResultsAux env baseRepoPath s.trace.length tl = [] ∨
        okOrConflictE ((addResultsAux env baseRepoPath s.trace.length tl).getLastD
          (Except.ok "")) = true)) ∧
    (∀ e, out = Except.error e →
      isConflictE ((addResultsAux env baseRepoPath s.trace.length tl).getLastD
        (Except.ok "")) = true →
      strContains e ("\x27" ++ branch ++ "\x27") = true)

/-- An empty store with id counter 1, used by the concrete runs. -/
def db0 : RepoDB := ⟨[], 1⟩

/-- A configuration for the concrete runs. -/
def cfg0 : Config := ⟨"/repos", none, 7⟩

/-- An oracle failing every worktree-add with the conflict message and answering every
other command with empty success output: all three attempts fail, every cleanup
succeeds, and the run returns normally with no worktree created. -/
def envConflict : Env := fun _ c =>
  if isWorktreeAddCmd "base" c then Except.error "already used by worktree"
  else Except.ok ""

/-- An oracle whose first command reports the base directory missing and whose every
later command fails: provisioning inserts the row and then fails in the clone step. -/
def envFailClone : Env := fun k _ =>
  if k == 0 then Except.ok "missing" else Except.error "boom"

/-- An oracle answering success everywhere; directory-existence probes report
`exists`. -/
def envAllExists : Env := fun _ _ => Except.ok "exists"

/-- An oracle for the orphan-reconciliation run: the listing reports three directories
and the removal of `b` fails. -/
def envLs : Env := fun k c =>
  if k == 0 then Except.ok "a\nb\nc"
  else if c.argv == ["rm", "-rf", "b"] then Except.error "permission denied"
  else Except.ok ""

/-- An oracle for the branch-switch run: the local-ref probe fails, the remote-ref probe
succeeds. -/
def envRemoteOnly : Env := fun k _ =>
  if k == 1 then Except.error "fatal: needed a single revision" else Except.ok ""

/-- An oracle for the worktree-exclusivity run: HEAD reports the requested branch
`feat`, `origin/HEAD` resolves to `origin/main`, and everything else succeeds. -/
def envHeadFeat : Env := fun k _ =>
  if k == 0 then Except.ok "feat\n"
  else if k == 1 then Except.ok "origin/main\n"
  else Except.ok ""

/-- A ready workspace row used by the concrete runs. -/
def row0 : Repo := ⟨1, "https://example.com/app.git", "app", none, "main", "ready", 5, false⟩

/-- A store holding one ready workspace row, used by the concrete runs. -/
def dbOne : RepoDB := ⟨[row0], 2⟩

/-- A store tracking directories `a` and `c`, for the reconciliation run. -/
def dbAC : RepoDB :=
  ⟨[⟨1, "https://example.com/a.git", "a", none, "main", "ready", 1, false⟩,
    ⟨2, "https://example.com/c.git", "c", none, "main", "ready", 1, false⟩], 3⟩

theorem runPure {α : Type} (a : α) (env : Env) (s : St) :
    (pure a : M α) env s = (Except.ok a, s) := rfl

theorem runBind {α β : Type} (m : M α) (f : α → M β) (env : Env) (s : St) :
    (m >>= f) env s =
      match m env s with
      | (Except.ok a, s') => f a env s'
      | (Except.error e, s') => (Except.error e, s') := rfl

theorem runThrow {α : Type} (msg : String) (env : Env) (s : St) :
    (throwM msg : M α) env s = (Except.error msg, s) := rfl

theorem runTryCatch {α : Type} (body : M α) (handler : String → M α) (env : Env) (s : St) :
    tryCatchM body handler env s =
      match body env s with
      | (Except.ok a, s') => (Except.ok a, s')
      | (Except.error e, s') => handler e env s' := rfl

theorem runExec (argv : List String) (cwd : Option String) (env : Env) (s : St) :
    executeCommand argv cwd env s =
      (env s.trace.length ⟨argv, cwd⟩, { s with trace := s.trace ++ [⟨argv, cwd⟩] }) := rfl

/-- CLAIM C9: `getCurrentBranch` never throws: it always returns a success value, the
trimmed short HEAD name when the single git probe succeeds and the absent value when it
fails. -/
theorem claim_C9_getCurrentBranch_never_throws (cfg : Config) (repo : Repo) (env : Env) (s : St) :
    getCurrentBranch cfg repo env s =
      (Except.ok
        (match env s.trace.length
            ⟨["git", "-C", pathResolve cfg.reposPath repo.localPath, "rev-parse", "--abbrev-ref", "HEAD"],
              none⟩ with
          | Except.ok o => some (trimStr o)
          | Except.error _ => none),
       { s with trace := s.trace ++
          [⟨["git", "-C", pathResolve cfg.reposPath repo.localPath, "rev-parse", "--abbrev-ref", "HEAD"],
            none⟩] }) := by
  cases h : env s.trace.length
      ⟨["git", "-C", pathResolve cfg.reposPath repo.localPath, "rev-parse", "--abbrev-ref", "HEAD"],
        none⟩ with
  | ok o => simp [getCurrentBranch, runTryCatch, runBind, runExec, runPure, h]
  | error e => simp [getCurrentBranch, runTryCatch, runBind, runExec, runPure, h]

/-- CLAIM C10: the separate-branch-clone arm of the provisioning dispatch is
unreachable: its guard is truthy exactly when the worktree guard is, so the dispatch
equals the two-way choice between the worktree arm and the default arm, and its value
never depends on the separate-clone arm. -/
theorem claim_C10_separate_clone_arm_dead (useWorktree : Bool) (branch : Option String)
    (baseRepoExists : String) (armW armS armS2 armD : M (Option Repo)) :
    armDispatch useWorktree branch baseRepoExists armW armS armD =
      (if shouldUseWorktreeFlag useWorktree branch baseRepoExists then armW else armD) ∧
    armDispatch useWorktree branch baseRepoExists armW armS armD =
      armDispatch useWorktree branch baseRepoExists armW armS2 armD := by
  unfold armDispatch shouldUseWorktreeFlag
  cases useWorktree <;> cases h : optTruthy branch <;>
    cases h2 : (trimStr baseRepoExists == "exists") <;> simp [h, h2]

/-- CLAIM C8: the inserted row carries `isWorktree = true` exactly when worktree mode
was requested, a (truthy) branch name was given, and the base-directory probe reported
`exists`; and whenever the flag is set the inserted row's branch is a nonempty name. -/
theorem claim_C8_worktree_flag (repoUrl localPath : String) (branch : Option String)
    (useWorktree : Bool) (baseRepoExists : String) (now : Nat) :
    ((mkCreateRepoInput repoUrl localPath branch
        (shouldUseWorktreeFlag useWorktree branch baseRepoExists) now).isWorktree
      = (useWorktree && optTruthy branch && (trimStr baseRepoExists == "exists"))) ∧
    ((mkCreateRepoInput repoUrl localPath branch
        (shouldUseWorktreeFlag useWorktree branch baseRepoExists) now).isWorktree = true →
      ∃ b, (mkCreateRepoInput repoUrl localPath branch
        (shouldUseWorktreeFlag useWorktree branch baseRepoExists) now).branch = some b ∧ b ≠ "") := by
  constructor
  · rfl
  · intro h
    cases branch with
    | none => simp [mkCreateRepoInput, shouldUseWorktreeFlag, optTruthy] at h
    | some b =>
      by_cases hb : b = ""
      · simp [mkCreateRepoInput, shouldUseWorktreeFlag, optTruthy, hb] at h
      · refine ⟨b, ?_, hb⟩
        simp [mkCreateRepoInput, optTruthy, hb]

/-- Witness for C8: a concrete input with the flag set, yielding the nonempty branch. -/
theorem claim_C8_worktree_flag_witness :
    ∃ b, (mkCreateRepoInput "https://example.com/app.git" "app-feat" (some "feat")
      (shouldUseWorktreeFlag true (some "feat") "exists") 7).branch = some b ∧ b ≠ "" :=
  (claim_C8_worktree_flag "https://example.com/app.git" "app-feat" (some "feat") true "exists" 7).2
    (by decide)

theorem iteTrueOf {α : Type} {c : Bool} (h : c = true) (a b : α) :
    (if c = true then a else b) = a := by simp [h]

theorem iteFalseOf {α : Type} {c : Bool} (h : c = false) (a b : α) :
    (if c = true then a else b) = b := by simp [h]

theorem removeOrphans_run (cfg : Config) (l : List String) (env : Env) (s : St) :
    removeOrphans cfg l env s =
      (Except.ok (),
       { s with trace := s.trace ++ l.map (fun d => ⟨["rm", "-rf", d], some cfg.reposPath⟩) }) := by
  induction l generalizing s with
  | nil => simp [removeOrphans, runPure]
  | cons d rest ih =>
    cases h : env s.trace.length ⟨["rm", "-rf", d], some cfg.reposPath⟩ with
    | ok o =>
      simp [removeOrphans, runBind, runTryCatch, runExec, runPure, h, ih, List.append_assoc]
    | error e =>
      simp [removeOrphans, runBind, runTryCatch, runExec, runPure, h, ih, List.append_assoc]

/-- CLAIM C7: on an existing workspace, `switchBranch` fetches, probes the local then
the remote ref, and issues exactly one checkout chosen by the tie-break: plain checkout
when the local ref resolves, a tracking `checkout -b` from `origin/branch` when only the
remote ref resolves, and a fresh `checkout -b` otherwise. -/
theorem claim_C7_switchBranch_tiebreak (cfg : Config) (repoId : Nat) (branch : String)
    (env : Env) (db : RepoDB) (repo : Repo)
    (hfind : db.rows.find? (fun r => r.id == repoId) = some repo)
    (f : String)
    (hfetch : env 0 ⟨["git", "-C", pathResolve cfg.reposPath repo.localPath, "fetch", "--all"], none⟩
      = Except.ok f) :
    ((switchBranch cfg repoId branch env ⟨db, []⟩).2.trace =
      [⟨["git", "-C", pathResolve cfg.reposPath repo.localPath, "fetch", "--all"], none⟩,
       ⟨["git", "-C", pathResolve cfg.reposPath repo.localPath, "rev-parse", "--verify",
          "refs/heads/" ++ branch], none⟩,
       ⟨["git", "-C", pathResolve cfg.reposPath repo.localPath, "rev-parse", "--verify",
          "refs/remotes/origin/" ++ branch], none⟩,
       if isOkE (env 1 ⟨["git", "-C", pathResolve cfg.reposPath repo.localPath, "rev-parse",
          "--verify", "refs/heads/" ++ branch], none⟩) then
         ⟨["git", "-C", pathResolve cfg.reposPath repo.localPath, "checkout", branch], none⟩
       else if isOkE (env 2 ⟨["git", "-C", pathResolve cfg.reposPath repo.localPath, "rev-parse",
          "--verify", "refs/remotes/origin/" ++ branch], none⟩) then
         ⟨["git", "-C", pathResolve cfg.reposPath repo.localPath, "checkout", "-b", branch,
            "origin/" ++ branch], none⟩
       else
         ⟨["git", "-C", pathResolve cfg.reposPath repo.localPath, "checkout", "-b", branch], none⟩]) ∧
    (switchBranch cfg repoId branch env ⟨db, []⟩).2.db = db := by
  cases h1 : env 1 ⟨["git", "-C", pathResolve cfg.reposPath repo.localPath, "rev-parse",
      "--verify", "refs/heads/" ++ branch], none⟩ with
  | ok o1 =>
    cases h2 : env 2 ⟨["git", "-C", pathResolve cfg.reposPath repo.localPath, "rev-parse",
        "--verify", "refs/remotes/origin/" ++ branch], none⟩ with
    | ok o2 =>
      cases h3 : env 3 ⟨["git", "-C", pathResolve cfg.reposPath repo.localPath, "checkout",
          branch], none⟩ with
      | ok o3 =>
        simp [switchBranch, getRepoByIdM, runBind, runTryCatch, runExec, runPure, runThrow,
          hfind, hfetch, h1, h2, h3, isOkE]
      | error e3 =>
        simp [switchBranch, getRepoByIdM, runBind, runTryCatch, runExec, runPure, runThrow,
          hfind, hfetch, h1, h2, h3, isOkE]
    | error e2 =>
      cases h3 : env 3 ⟨["git", "-C", pathResolve cfg.reposPath repo.localPath, "checkout",
          branch], none⟩ with
      | ok o3 =>
        simp [switchBranch, getRepoByIdM, runBind, runTryCatch, runExec, runPure, runThrow,
          hfind, hfetch, h1, h2, h3, isOkE]
      | error e3 =>
        simp [switchBranch, getRepoByIdM, runBind, runTryCatch, runExec, runPure, runThrow,
          hfind, hfetch, h1, h2, h3, isOkE]
  | error e1 =>
    cases h2 : env 2 ⟨["git", "-C", pathResolve cfg.reposPath repo.localPath, "rev-parse",
        "--verify", "refs/remotes/origin/" ++ branch], none⟩ with
    | ok o2 =>
      cases h3 : env 3 ⟨["git", "-C", pathResolve cfg.reposPath repo.localPath, "checkout",
          "-b", branch, "origin/" ++ branch], none⟩ with
      | ok o3 =>
        simp [switchBranch, getRepoByIdM, runBind, runTryCatch, runExec, runPure, runThrow,
          hfind, hfetch, h1, h2, h3, isOkE]
      | error e3 =>
        simp [switchBranch, getRepoByIdM, runBind, runTryCatch, runExec, runPure, runThrow,
          hfind, hfetch, h1, h2, h3, isOkE]
    | error e2 =>
      cases h3 : env 3 ⟨["git", "-C", pathResolve cfg.reposPath repo.localPath, "checkout",
          "-b", branch], none⟩ with
      | ok o3 =>
        simp [switchBranch, getRepoByIdM, runBind, runTryCatch, runExec, runPure, runThrow,
          hfind, hfetch, h1, h2, h3, isOkE]
      | error e3 =>
        simp [switchBranch, getRepoByIdM, runBind, runTryCatch, runExec, runPure, runThrow,
          hfind, hfetch, h1, h2, h3, isOkE]

/-- Witness for C7: with only the remote ref resolving, the issued checkout creates the
local branch from `origin/feat`. -/
theorem claim_C7_switchBranch_tiebreak_witness :
    (switchBranch cfg0 1 "feat" envRemoteOnly ⟨dbOne, []⟩).2.trace =
      [⟨["git", "-C", pathResolve cfg0.reposPath row0.localPath, "fetch", "--all"], none⟩,
       ⟨["git", "-C", pathResolve cfg0.reposPath row0.localPath, "rev-parse", "--verify",
          "refs/heads/feat"], none⟩,
       ⟨["git", "-C", pathResolve cfg0.reposPath row0.localPath, "rev-parse", "--verify",
          "refs/remotes/origin/feat"], none⟩,
       ⟨["git", "-C", pathResolve cfg0.reposPath row0.localPath, "checkout", "-b", "feat",
          "origin/feat"], none⟩] :=
  ((claim_C7_switchBranch_tiebreak cfg0 1 "feat" envRemoteOnly dbOne row0 rfl "" rfl).1).trans
    (by decide)

/-- CLAIM C4: the reconciliation pass never throws, leaves the store untouched, and its
command trace is exactly the listing followed by one `rm -rf` for each listed directory
not matching the last path segment of any tracked row, in order — so tracked directories
are untouched and one failed removal (the oracle is arbitrary past the listing) does not
stop the rest. -/
theorem claim_C4_reconcile_exact (cfg : Config) (env : Env) (db : RepoDB) (out : String)
    (hls : env 0 ⟨["ls", "-1"], some cfg.reposPath⟩ = Except.ok out) :
    cleanupOrphanedDirectories cfg env ⟨db, []⟩ =
      (Except.ok (),
       ⟨db, ⟨["ls", "-1"], some cfg.reposPath⟩ ::
          (((splitStr out '\n').filter (fun d => !(trimStr d == ""))).filter
            (fun d => !((db.rows.map (fun r => (splitStr r.localPath '/').getLastD "")).contains d))).map
            (fun d => ⟨["rm", "-rf", d], some cfg.reposPath⟩)⟩) := by
  unfold cleanupOrphanedDirectories
  simp only [runTryCatch, runBind, runExec, runPure, listReposM, List.length_nil, hls]
  cases hc1 : ((splitStr out '\n').filter (fun d => !(trimStr d == ""))).length == 0 with
  | true =>
    have hemp : (splitStr out '\n').filter (fun d => !(trimStr d == "")) = [] :=
      List.length_eq_zero.mp (beq_iff_eq.mp hc1)
    rw [if_pos rfl]
    simp [hemp, runPure]
  | false =>
    rw [if_neg (fun h => Bool.noConfusion h)]
    simp only [runBind, listReposM, runPure]
    cases hc2 : decide ((((splitStr out '\n').filter (fun d => !(trimStr d == ""))).filter
        (fun d => !((db.rows.map (fun r => (splitStr r.localPath '/').getLastD "")).contains d))).length
          > 0) with
    | true =>
      rw [if_pos rfl, removeOrphans_run]
      simp
    | false =>
      have hemp2 : (((splitStr out '\n').filter (fun d => !(trimStr d == ""))).filter
          (fun d => !((db.rows.map (fun r => (splitStr r.localPath '/').getLastD "")).contains d))) = [] :=
        List.length_eq_zero.mp (Nat.eq_zero_of_not_pos (of_decide_eq_false hc2))
      rw [if_neg (fun h => Bool.noConfusion h), hemp2]
      simp [runPure]

/-- Witness for C4: on-disk `{a, b, c}` with rows tracking `{a, c}` removes exactly `b`,
even though that removal itself fails. -/
theorem claim_C4_reconcile_exact_witness :
    cleanupOrphanedDirectories cfg0 envLs ⟨dbAC, []⟩ =
      (Except.ok (),
       ⟨dbAC, [⟨["ls", "-1"], some cfg0.reposPath⟩, ⟨["rm", "-rf", "b"], some cfg0.reposPath⟩]⟩) :=
  (claim_C4_reconcile_exact cfg0 envLs dbAC "a\nb\nc" rfl).trans rfl

theorem worktreeRemovalBlock_run (cfg : Config) (b f : String) (env : Env) (s : St) :
    ∃ t, worktreeRemovalBlock cfg b f env s = (Except.ok (), { s with trace := s.trace ++ t }) := by
  unfold worktreeRemovalBlock
  cases h1 : env s.trace.length ⟨["git", "-C", b, "worktree", "remove", f], none⟩ with
  | ok o1 =>
    exact ⟨[⟨["git", "-C", b, "worktree", "remove", f], none⟩],
      by simp [runTryCatch, runBind, runExec, runPure, h1]⟩
  | error e1 =>
    cases h2 : env (s.trace.length + 1) ⟨["git", "-C", b, "worktree", "remove", "--force", f], none⟩ with
    | ok o2 =>
      exact ⟨[⟨["git", "-C", b, "worktree", "remove", f], none⟩,
        ⟨["git", "-C", b, "worktree", "remove", "--force", f], none⟩],
        by simp [runTryCatch, runBind, runExec, runPure, h1, h2, List.append_assoc]⟩
    | error e2 =>
      cases h3 : env (s.trace.length + 1 + 1) ⟨["git", "-C", b, "worktree", "prune"], none⟩ with
      | ok o3 =>
        cases h4 : env (s.trace.length + 1 + 1 + 1)
            ⟨["git", "-C", b, "worktree", "remove", "--force", f], none⟩ with
        | ok o4 =>
          exact ⟨[⟨["git", "-C", b, "worktree", "remove", f], none⟩,
            ⟨["git", "-C", b, "worktree", "remove", "--force", f], none⟩,
            ⟨["git", "-C", b, "worktree", "prune"], none⟩,
            ⟨["git", "-C", b, "worktree", "remove", "--force", f], none⟩],
            by simp [runTryCatch, runBind, runExec, runPure, h1, h2, h3, h4, List.append_assoc]⟩
        | error e4 =>
          exact ⟨[⟨["git", "-C", b, "worktree", "remove", f], none⟩,
            ⟨["git", "-C", b, "worktree", "remove", "--force", f], none⟩,
            ⟨["git", "-C", b, "worktree", "prune"], none⟩,
            ⟨["git", "-C", b, "worktree", "remove", "--force", f], none⟩],
            by simp [runTryCatch, runBind, runExec, runPure, h1, h2, h3, h4, List.append_assoc]⟩
      | error e3 =>
        exact ⟨[⟨["git", "-C", b, "worktree", "remove", f], none⟩,
          ⟨["git", "-C", b, "worktree", "remove", "--force", f], none⟩,
          ⟨["git", "-C", b, "worktree", "prune"], none⟩],
          by simp [runTryCatch, runBind, runExec, runPure, h1, h2, h3, List.append_assoc]⟩

/-- CLAIM C5: when the post-removal existence check keeps reporting the directory
present, `deleteRepoFiles` throws and the store is left exactly as it was — the row is
never deleted before the directory is confirmed gone. -/
theorem claim_C5_row_survives_failed_removal (cfg : Config) (repoId : Nat) (env : Env) (s : St)
    (hex : ∀ k d, env k ⟨["bash", "-c", "test -d " ++ d ++ " && echo exists || echo deleted"],
      some cfg.reposPath⟩ = Except.ok "exists") :
    isErr (deleteRepoFiles cfg repoId env s).1 = true ∧
    (deleteRepoFiles cfg repoId env s).2.db = s.db := by
  unfold deleteRepoFiles
  cases hfind : s.db.rows.find? (fun r => r.id == repoId) with
  | none => simp [runBind, getRepoByIdM, hfind, runThrow, isErr]
  | some repo =>
    cases hw1 : repo.isWorktree with
    | true =>
      cases hw2 : optTruthy repo.branch with
      | true =>
        obtain ⟨t, hbl⟩ := worktreeRemovalBlock_run cfg
          (pathResolve cfg.reposPath (extractRepoName cfg.now repo.repoUrl))
          (pathResolve cfg.reposPath (lastPathSegment repo.localPath)) env s
        cases hrm : env (s.trace.length + t.length)
            ⟨["rm", "-rf", lastPathSegment repo.localPath], some cfg.reposPath⟩ with
        | ok orm =>
          have hchk := hex (s.trace.length + (t.length + 1)) (lastPathSegment repo.localPath)
          simp [runBind, getRepoByIdM, hfind, runTryCatch, runExec, runPure, runThrow, isErr,
            hw1, hw2, hbl, hrm, hchk, List.append_assoc,
            show trimStr "exists" = "exists" from rfl]
        | error erm =>
          simp [runBind, getRepoByIdM, hfind, runTryCatch, runExec, runPure, runThrow, isErr,
            hw1, hw2, hbl, hrm, List.append_assoc]
      | false =>
        cases hrm : env s.trace.length
            ⟨["rm", "-rf", lastPathSegment repo.localPath], some cfg.reposPath⟩ with
        | ok orm =>
          have hchk := hex (s.trace.length + 1) (lastPathSegment repo.localPath)
          simp [runBind, getRepoByIdM, hfind, runTryCatch, runExec, runPure, runThrow, isErr,
            hw1, hw2, hrm, hchk, List.append_assoc,
            show trimStr "exists" = "exists" from rfl]
        | error erm =>
          simp [runBind, getRepoByIdM, hfind, runTryCatch, runExec, runPure, runThrow, isErr,
            hw1, hw2, hrm, List.append_assoc]
    | false =>
      cases hrm : env s.trace.length
          ⟨["rm", "-rf", lastPathSegment repo.localPath], some cfg.reposPath⟩ with
      | ok orm =>
        have hchk := hex (s.trace.length + 1) (lastPathSegment repo.localPath)
        simp [runBind, getRepoByIdM, hfind, runTryCatch, runExec, runPure, runThrow, isErr,
          hw1, hrm, hchk, List.append_assoc,
          show trimStr "exists" = "exists" from rfl]
      | error erm =>
        simp [runBind, getRepoByIdM, hfind, runTryCatch, runExec, runPure, runThrow, isErr,
          hw1, hrm, List.append_assoc]

/-- Witness for C5: with every existence probe answering `exists`, deleting the tracked
workspace fails and the row list is untouched. -/
theorem claim_C5_row_survives_failed_removal_witness :
    isErr (deleteRepoFiles cfg0 1 envAllExists ⟨dbOne, []⟩).1 = true ∧
    (deleteRepoFiles cfg0 1 envAllExists ⟨dbOne, []⟩).2.db = dbOne :=
  claim_C5_row_survives_failed_removal cfg0 1 envAllExists ⟨dbOne, []⟩ (fun _ _ => rfl)

theorem traceMono_pure {α : Type} (a : α) : TraceMono (pure a : M α) :=
  fun _ s => ⟨[], by simp [runPure]⟩

theorem traceMono_throw {α : Type} (msg : String) : TraceMono (throwM msg : M α) :=
  fun _ s => ⟨[], by simp [runThrow]⟩

theorem traceMono_exec (argv : List String) (cwd : Option String) :
    TraceMono (executeCommand argv cwd) :=
  fun _ s => ⟨[⟨argv, cwd⟩], rfl⟩

theorem traceMono_bind {α β : Type} {m : M α} {f : α → M β}
    (hm : TraceMono m) (hf : ∀ a, TraceMono (f a)) : TraceMono (m >>= f) := by
  intro env s
  obtain ⟨t1, h1⟩ := hm env s
  rw [runBind]
  cases h : m env s with
  | mk out s1 =>
    cases out with
    | ok a =>
      obtain ⟨t2, h2⟩ := hf a env s1
      refine ⟨t1 ++ t2, ?_⟩
      rw [h] at h1
      have h1x : s1.trace = s.trace ++ t1 := h1
      rw [h2, h1x, List.append_assoc]
    | error e =>
      refine ⟨t1, ?_⟩
      rw [h] at h1
      exact h1

theorem traceMono_tryCatch {α : Type} {body : M α} {handler : String → M α}
    (hb : TraceMono body) (hh : ∀ e, TraceMono (handler e)) : TraceMono (tryCatchM body handler) := by
  intro env s
  obtain ⟨t1, h1⟩ := hb env s
  rw [runTryCatch]
  cases h : body env s with
  | mk out s1 =>
    cases out with
    | ok a =>
      refine ⟨t1, ?_⟩
      rw [h] at h1
      exact h1
    | error e =>
      obtain ⟨t2, h2⟩ := hh e env s1
      refine ⟨t1 ++ t2, ?_⟩
      rw [h] at h1
      have h1x : s1.trace = s.trace ++ t1 := h1
      rw [h2, h1x, List.append_assoc]

theorem traceMono_ite {α : Type} {c : Prop} [Decidable c] {a b : M α}
    (ha : TraceMono a) (hb : TraceMono b) : TraceMono (if c then a else b) := by
  by_cases h : c
  · rw [if_pos h]; exact ha
  · rw [if_neg h]; exact hb

theorem traceMono_pruneWorktreeReferences (b : String) : TraceMono (pruneWorktreeReferences b) := by
  unfold pruneWorktreeReferences
  exact traceMono_tryCatch
    (traceMono_bind (traceMono_exec _ _) (fun _ => traceMono_pure _))
    (fun _ => traceMono_pure _)

theorem traceMono_cleanupLines (b w : String) (l : List String) :
    TraceMono (cleanupLines b w l) := by
  induction l with
  | nil =>
    unfold cleanupLines
    exact traceMono_bind (traceMono_pruneWorktreeReferences b) (fun _ => traceMono_pure _)
  | cons line rest ih =>
    unfold cleanupLines
    exact traceMono_ite
      (traceMono_bind (traceMono_exec _ _) (fun _ => traceMono_pure _)) ih

theorem traceMono_cleanupStaleWorktree (b w : String) : TraceMono (cleanupStaleWorktree b w) := by
  unfold cleanupStaleWorktree
  exact traceMono_tryCatch
    (traceMono_bind (traceMono_exec _ _) (fun a => traceMono_cleanupLines b w _))
    (fun _ => traceMono_pure _)

theorem traceMono_worktreeLoop (b w br : String) (be : Bool) (atts : List Nat) :
    TraceMono (worktreeLoop b w br be atts) := by
  induction atts with
  | nil => exact traceMono_pure _
  | cons attempt rest ih =>
    unfold worktreeLoop
    refine traceMono_tryCatch ?_ (fun e => ?_)
    · cases be with
      | true => exact traceMono_bind (traceMono_exec _ _) (fun _ => traceMono_pure _)
      | false => exact traceMono_bind (traceMono_exec _ _) (fun _ => traceMono_pure _)
    · refine traceMono_ite ?_ (traceMono_ite (traceMono_throw _) ih)
      exact traceMono_bind (traceMono_cleanupStaleWorktree b w)
        (fun cleaned => traceMono_ite (traceMono_throw _) ih)

theorem traceMono_worktreePhase2 (b w br : String) : TraceMono (worktreePhase2 b w br) := by
  unfold worktreePhase2
  refine traceMono_bind ?_ (fun be => traceMono_worktreeLoop b w br be _)
  exact traceMono_tryCatch
    (traceMono_bind (traceMono_exec _ _) (fun _ => traceMono_pure _))
    (fun _ => traceMono_tryCatch
      (traceMono_bind (traceMono_exec _ _) (fun _ => traceMono_pure _))
      (fun _ => traceMono_pure _))

theorem switchBeforeAdd_noAdds (env : Env) (base d : String) (tr : List Cmd)
    (h : ∀ c ∈ tr, isWorktreeAddCmd base c = false) : switchBeforeAdd env base d tr := by
  intro k c hk hadd
  rw [h _ (List.get?_mem hk)] at hadd
  exact Bool.noConfusion hadd

theorem switchBeforeAdd_extend (env : Env) (base d : String) (pre tail : List Cmd)
    (hnoadd : ∀ c ∈ pre, isWorktreeAddCmd base c = false)
    (i₀ : Nat) (c₀ : Cmd) (hi₀ : pre.get? i₀ = some c₀) (hilt : i₀ < pre.length)
    (hgood : (isCheckoutTo base d c₀ || isCheckoutTo base "main" c₀) = true)
    (hok : isOkE (env i₀ c₀) = true) :
    switchBeforeAdd env base d (pre ++ tail) := by
  intro k c hk hadd
  by_cases hkpre : k < pre.length
  · rw [List.get?_append hkpre] at hk
    rw [hnoadd _ (List.get?_mem hk)] at hadd
    exact Bool.noConfusion hadd
  · have hik : i₀ < k := lt_of_lt_of_le hilt (Nat.le_of_not_lt hkpre)
    have hpre : (pre ++ tail).get? i₀ = some c₀ := by rw [List.get?_append hilt]; exact hi₀
    exact ⟨i₀, c₀, hik, hpre, hgood, hok⟩

/-- CLAIM C6: when the base repository's HEAD probe reports the requested branch, every
worktree-add attempt of the run is preceded by an earlier successful checkout switching
the base repository to the resolved default branch (from `origin/HEAD`, `origin/`
stripped, `main` on resolution failure) or to the `main` fallback. -/
theorem claim_C6_switch_base_before_add (env : Env) (db : RepoDB) (base wt b hv : String)
    (h0 : env 0 (headCmd base) = Except.ok hv) (hb : trimStr hv = b) :
    switchBeforeAdd env base (resolvedDefault env base)
      ((createWorktreeSafely base wt b env ⟨db, []⟩).2.trace) := by
  have h0x : env 0 ⟨["git", "-C", base, "rev-parse", "--abbrev-ref", "HEAD"], none⟩ = Except.ok hv := h0
  cases h1 : env 1 ⟨["git", "-C", base, "rev-parse", "--abbrev-ref", "origin/HEAD"], none⟩ with
  | ok r =>
    have hre : resolvedDefault env base = replaceFirst (trimStr r) "origin/" "" := by
      simp [resolvedDefault, originHeadCmd, h1]
    cases h2 : env 2 ⟨["git", "-C", base, "checkout", replaceFirst (trimStr r) "origin/" ""], none⟩ with
    | ok o2 =>
      have hred : (createWorktreeSafely base wt b env ⟨db, []⟩) =
          worktreePhase2 base wt b env ⟨db, [⟨["git", "-C", base, "rev-parse", "--abbrev-ref", "HEAD"], none⟩, ⟨["git", "-C", base, "rev-parse", "--abbrev-ref", "origin/HEAD"], none⟩, ⟨["git", "-C", base, "checkout", replaceFirst (trimStr r) "origin/" ""], none⟩]⟩ := by
        simp [createWorktreeSafely, runBind, runExec, runTryCatch, runPure, h0x, h1, h2, hb]
      obtain ⟨tail, ht⟩ := traceMono_worktreePhase2 base wt b env ⟨db, [⟨["git", "-C", base, "rev-parse", "--abbrev-ref", "HEAD"], none⟩, ⟨["git", "-C", base, "rev-parse", "--abbrev-ref", "origin/HEAD"], none⟩, ⟨["git", "-C", base, "checkout", replaceFirst (trimStr r) "origin/" ""], none⟩]⟩
      rw [hred, ht]
      rw [hre]
      refine switchBeforeAdd_extend env base (replaceFirst (trimStr r) "origin/" "") [⟨["git", "-C", base, "rev-parse", "--abbrev-ref", "HEAD"], none⟩, ⟨["git", "-C", base, "rev-parse", "--abbrev-ref", "origin/HEAD"], none⟩, ⟨["git", "-C", base, "checkout", replaceFirst (trimStr r) "origin/" ""], none⟩] tail ?_ 2
        ⟨["git", "-C", base, "checkout", replaceFirst (trimStr r) "origin/" ""], none⟩ rfl (by simp) ?_ ?_
      · intro c hc
        simp at hc
        rcases hc with rfl | rfl | rfl <;> rfl
      · simp [isCheckoutTo]
      · simp [isOkE, h2]
    | error e2 =>
      cases h3 : env 3 ⟨["git", "-C", base, "checkout", "main"], none⟩ with
      | ok o3 =>
      have hred : (createWorktreeSafely base wt b env ⟨db, []⟩) =
          worktreePhase2 base wt b env ⟨db, [⟨["git", "-C", base, "rev-parse", "--abbrev-ref", "HEAD"], none⟩, ⟨["git", "-C", base, "rev-parse", "--abbrev-ref", "origin/HEAD"], none⟩, ⟨["git", "-C", base, "checkout", replaceFirst (trimStr r) "origin/" ""], none⟩, ⟨["git", "-C", base, "checkout", "main"], none⟩]⟩ := by
        simp [createWorktreeSafely, runBind, runExec, runTryCatch, runPure, h0x, h1, h2, h3, hb]
      obtain ⟨tail, ht⟩ := traceMono_worktreePhase2 base wt b env ⟨db, [⟨["git", "-C", base, "rev-parse", "--abbrev-ref", "HEAD"], none⟩, ⟨["git", "-C", base, "rev-parse", "--abbrev-ref", "origin/HEAD"], none⟩, ⟨["git", "-C", base, "checkout", replaceFirst (trimStr r) "origin/" ""], none⟩, ⟨["git", "-C", base, "checkout", "main"], none⟩]⟩
      rw [hred, ht]
      rw [hre]
      refine switchBeforeAdd_extend env base (replaceFirst (trimStr r) "origin/" "") [⟨["git", "-C", base, "rev-parse", "--abbrev-ref", "HEAD"], none⟩, ⟨["git", "-C", base, "rev-parse", "--abbrev-ref", "origin/HEAD"], none⟩, ⟨["git", "-C", base, "checkout", replaceFirst (trimStr r) "origin/" ""], none⟩, ⟨["git", "-C", base, "checkout", "main"], none⟩] tail ?_ 3
        ⟨["git", "-C", base, "checkout", "main"], none⟩ rfl (by simp) ?_ ?_
      · intro c hc
        simp at hc
        rcases hc with rfl | rfl | rfl | rfl <;> rfl
      · simp [isCheckoutTo]
      · simp [isOkE, h3]
      | error e3 =>
      have hred : (createWorktreeSafely base wt b env ⟨db, []⟩).2.trace =
          [⟨["git", "-C", base, "rev-parse", "--abbrev-ref", "HEAD"], none⟩, ⟨["git", "-C", base, "rev-parse", "--abbrev-ref", "origin/HEAD"], none⟩, ⟨["git", "-C", base, "checkout", replaceFirst (trimStr r) "origin/" ""], none⟩, ⟨["git", "-C", base, "checkout", "main"], none⟩] := by
        simp [createWorktreeSafely, runBind, runExec, runTryCatch, runPure, h0x, h1, h2, h3, hb]
      rw [hred]
      refine switchBeforeAdd_noAdds env base _ _ ?_
      intro c hc
      simp at hc
      rcases hc with rfl | rfl | rfl | rfl <;> rfl
  | error r1 =>
    have hre : resolvedDefault env base = "main" := by
      simp [resolvedDefault, originHeadCmd, h1]
    cases h2 : env 2 ⟨["git", "-C", base, "checkout", "main"], none⟩ with
    | ok o2 =>
      have hred : (createWorktreeSafely base wt b env ⟨db, []⟩) =
          worktreePhase2 base wt b env ⟨db, [⟨["git", "-C", base, "rev-parse", "--abbrev-ref", "HEAD"], none⟩, ⟨["git", "-C", base, "rev-parse", "--abbrev-ref", "origin/HEAD"], none⟩, ⟨["git", "-C", base, "checkout", "main"], none⟩]⟩ := by
        simp [createWorktreeSafely, runBind, runExec, runTryCatch, runPure, h0x, h1, h2, hb]
      obtain ⟨tail, ht⟩ := traceMono_worktreePhase2 base wt b env ⟨db, [⟨["git", "-C", base, "rev-parse", "--abbrev-ref", "HEAD"], none⟩, ⟨["git", "-C", base, "rev-parse", "--abbrev-ref", "origin/HEAD"], none⟩, ⟨["git", "-C", base, "checkout", "main"], none⟩]⟩
      rw [hred, ht]
      rw [hre]
      refine switchBeforeAdd_extend env base ("main") [⟨["git", "-C", base, "rev-parse", "--abbrev-ref", "HEAD"], none⟩, ⟨["git", "-C", base, "rev-parse", "--abbrev-ref", "origin/HEAD"], none⟩, ⟨["git", "-C", base, "checkout", "main"], none⟩] tail ?_ 2
        ⟨["git", "-C", base, "checkout", "main"], none⟩ rfl (by simp) ?_ ?_
      · intro c hc
        simp at hc
        rcases hc with rfl | rfl | rfl <;> rfl
      · simp [isCheckoutTo]
      · simp [isOkE, h2]
    | error e2 =>
      cases h3 : env 3 ⟨["git", "-C", base, "checkout", "main"], none⟩ with
      | ok o3 =>
      have hred : (createWorktreeSafely base wt b env ⟨db, []⟩) =
          worktreePhase2 base wt b env ⟨db, [⟨["git", "-C", base, "rev-parse", "--abbrev-ref", "HEAD"], none⟩, ⟨["git", "-C", base, "rev-parse", "--abbrev-ref", "origin/HEAD"], none⟩, ⟨["git", "-C", base, "checkout", "main"], none⟩, ⟨["git", "-C", base, "checkout", "main"], none⟩]⟩ := by
        simp [createWorktreeSafely, runBind, runExec, runTryCatch, runPure, h0x, h1, h2, h3, hb]
      obtain ⟨tail, ht⟩ := traceMono_worktreePhase2 base wt b env ⟨db, [⟨["git", "-C", base, "rev-parse", "--abbrev-ref", "HEAD"], none⟩, ⟨["git", "-C", base, "rev-parse", "--abbrev-ref", "origin/HEAD"], none⟩, ⟨["git", "-C", base, "checkout", "main"], none⟩, ⟨["git", "-C", base, "checkout", "main"], none⟩]⟩
      rw [hred, ht]
      rw [hre]
      refine switchBeforeAdd_extend env base ("main") [⟨["git", "-C", base, "rev-parse", "--abbrev-ref", "HEAD"], none⟩, ⟨["git", "-C", base, "rev-parse", "--abbrev-ref", "origin/HEAD"], none⟩, ⟨["git", "-C", base, "checkout", "main"], none⟩, ⟨["git", "-C", base, "checkout", "main"], none⟩] tail ?_ 3
        ⟨["git", "-C", base, "checkout", "main"], none⟩ rfl (by simp) ?_ ?_
      · intro c hc
        simp at hc
        rcases hc with rfl | rfl | rfl | rfl <;> rfl
      · simp [isCheckoutTo]
      · simp [isOkE, h3]
      | error e3 =>
      have hred : (createWorktreeSafely base wt b env ⟨db, []⟩).2.trace =
          [⟨["git", "-C", base, "rev-parse", "--abbrev-ref", "HEAD"], none⟩, ⟨["git", "-C", base, "rev-parse", "--abbrev-ref", "origin/HEAD"], none⟩, ⟨["git", "-C", base, "checkout", "main"], none⟩, ⟨["git", "-C", base, "checkout", "main"], none⟩] := by
        simp [createWorktreeSafely, runBind, runExec, runTryCatch, runPure, h0x, h1, h2, h3, hb]
      rw [hred]
      refine switchBeforeAdd_noAdds env base _ _ ?_
      intro c hc
      simp at hc
      rcases hc with rfl | rfl | rfl | rfl <;> rfl

/-- Witness for C6: HEAD reports the requested branch `feat`, `origin/HEAD` resolves to
`origin/main`, and every later command succeeds. -/
theorem claim_C6_switch_base_before_add_witness :
    switchBeforeAdd envHeadFeat "base" (resolvedDefault envHeadFeat "base")
      ((createWorktreeSafely "base" "wt" "feat" envHeadFeat ⟨db0, []⟩).2.trace) :=
  claim_C6_switch_base_before_add envHeadFeat db0 "base" "wt" "feat" "feat\n" rfl rfl

theorem strData_append (a b : String) : (a ++ b).data = a.data ++ b.data := rfl

theorem strAppend_assoc (a b c : String) : (a ++ b) ++ c = a ++ (b ++ c) := by
  cases a with
  | mk la =>
    cases b with
    | mk lb =>
      cases c with
      | mk lc =>
        show String.mk ((la ++ lb) ++ lc) = String.mk (la ++ (lb ++ lc))
        rw [List.append_assoc]

theorem dropPrefixCh_self (q rest : List Char) : dropPrefixCh q (q ++ rest) = some rest := by
  induction q with
  | nil => rfl
  | cons a as ih => simp [dropPrefixCh, ih]

theorem containsCh_append_self (q r : List Char) : containsCh q (q ++ r) = true := by
  cases q with
  | nil =>
    cases r with
    | nil => rfl
    | cons a as => simp [containsCh, dropPrefixCh]
  | cons qc qs =>
    have heq : (qc :: qs) ++ r = qc :: (qs ++ r) := rfl
    rw [heq]
    show ((dropPrefixCh (qc :: qs) (qc :: (qs ++ r))).isSome || containsCh (qc :: qs) (qs ++ r)) = true
    rw [← heq, dropPrefixCh_self]
    rfl

theorem containsCh_cons_of (q l : List Char) (a : Char) (h : containsCh q l = true) :
    containsCh q (a :: l) = true := by
  simp [containsCh, h]

theorem containsCh_append_left (p q m : List Char) (h : containsCh q m = true) :
    containsCh q (p ++ m) = true := by
  induction p with
  | nil => exact h
  | cons a as ih => exact containsCh_cons_of q (as ++ m) a ih

theorem strContains_middle (p q r : String) : strContains (p ++ (q ++ r)) q = true := by
  show containsCh q.data (p ++ (q ++ r)).data = true
  rw [strData_append, strData_append]
  exact containsCh_append_left p.data q.data (q.data ++ r.data)
    (containsCh_append_self q.data r.data)

theorem addResultsAux_append (env : Env) (base : String) (k : Nat) (l1 l2 : List Cmd) :
    addResultsAux env base k (l1 ++ l2) =
      addResultsAux env base k l1 ++ addResultsAux env base (k + l1.length) l2 := by
  induction l1 generalizing k with
  | nil => simp [addResultsAux]
  | cons c rest ih =>
    have harith : k + 1 + rest.length = k + (rest.length + 1) := by omega
    by_cases h : isWorktreeAddCmd base c = true
    · simp [addResultsAux, h, ih, harith]
    · have hf : isWorktreeAddCmd base c = false := by
        cases hx : isWorktreeAddCmd base c
        · rfl
        · exact absurd hx h
      simp [addResultsAux, hf, ih, harith]

theorem addResultsAux_nil_of_noAdds (env : Env) (base : String) (tl : List Cmd)
    (h : tl.all (fun c => !isWorktreeAddCmd base c) = true) (k : Nat) :
    addResultsAux env base k tl = [] := by
  induction tl generalizing k with
  | nil => rfl
  | cons c rest ih =>
    rw [List.all_cons, Bool.and_eq_true] at h
    have hc : isWorktreeAddCmd base c = false := by
      cases hx : isWorktreeAddCmd base c
      · rfl
      · rw [hx] at h; exact absurd h.1 (by simp)
    simp [addResultsAux, hc, ih h.2]

theorem cleanupLines_run (base wt : String) (lines : List String) (env : Env) (s : St) :
    ∃ tl out, cleanupLines base wt lines env s = (out, { s with trace := s.trace ++ tl }) ∧
      tl.all (fun c => !isWorktreeAddCmd base c) = true := by
  induction lines generalizing s with
  | nil =>
    cases hp : env s.trace.length ⟨["git", "-C", base, "worktree", "prune"], none⟩ with
    | ok o =>
      exact ⟨[⟨["git", "-C", base, "worktree", "prune"], none⟩], Except.ok true,
        by simp [cleanupLines, pruneWorktreeReferences, runTryCatch, runBind, runExec, runPure, hp],
        rfl⟩
    | error e =>
      exact ⟨[⟨["git", "-C", base, "worktree", "prune"], none⟩], Except.ok true,
        by simp [cleanupLines, pruneWorktreeReferences, runTryCatch, runBind, runExec, runPure, hp],
        rfl⟩
  | cons line rest ih =>
    cases hc : strContains line wt with
    | true =>
      cases hr : env s.trace.length
          ⟨["git", "-C", base, "worktree", "remove", "--force", wt], none⟩ with
      | ok o =>
        exact ⟨[⟨["git", "-C", base, "worktree", "remove", "--force", wt], none⟩], Except.ok true,
          by simp [cleanupLines, hc, runBind, runExec, runPure, hr], rfl⟩
      | error e =>
        exact ⟨[⟨["git", "-C", base, "worktree", "remove", "--force", wt], none⟩], Except.error e,
          by simp [cleanupLines, hc, runBind, runExec, runPure, hr], rfl⟩
    | false =>
      obtain ⟨tl, out, heq, hall⟩ := ih s
      exact ⟨tl, out, by simp [cleanupLines, hc, heq], hall⟩

theorem cleanupStale_run (base wt : String) (env : Env) (s : St) :
    ∃ tl bb, cleanupStaleWorktree base wt env s =
      (Except.ok bb, { s with trace := s.trace ++ tl }) ∧
      tl.all (fun c => !isWorktreeAddCmd base c) = true := by
  cases hl : env s.trace.length ⟨["git", "-C", base, "worktree", "list", "--porcelain"], none⟩ with
  | error e =>
    exact ⟨[⟨["git", "-C", base, "worktree", "list", "--porcelain"], none⟩], false,
      by simp [cleanupStaleWorktree, runTryCatch, runBind, runExec, runPure, hl], rfl⟩
  | ok wl =>
    obtain ⟨tl, out, heq, hall⟩ := cleanupLines_run base wt
      ((splitStr wl '\n').filter (fun l => !(trimStr l == ""))) env
      { s with trace := s.trace ++ [⟨["git", "-C", base, "worktree", "list", "--porcelain"], none⟩] }
    have hallc : ((⟨["git", "-C", base, "worktree", "list", "--porcelain"], none⟩ : Cmd) :: tl).all
        (fun c => !isWorktreeAddCmd base c) = true := by
      rw [List.all_cons, hall]
      rfl
    cases out with
    | ok bb =>
      refine ⟨⟨["git", "-C", base, "worktree", "list", "--porcelain"], none⟩ :: tl, bb, ?_, hallc⟩
      simp [cleanupStaleWorktree, runTryCatch, runBind, runExec, runPure, hl, heq]
    | error e =>
      refine ⟨⟨["git", "-C", base, "worktree", "list", "--porcelain"], none⟩ :: tl, false, ?_, hallc⟩
      simp [cleanupStaleWorktree, runTryCatch, runBind, runExec, runPure, hl, heq]

theorem getLastD_irrel {α : Type} (l : List α) (h : l ≠ []) (d1 d2 : α) :
    l.getLastD d1 = l.getLastD d2 := by
  cases l with
  | nil => exact absurd rfl h
  | cons x xs => simp [List.getLastD]

theorem getLastD_append_ne {α : Type} (l1 l2 : List α) (d : α) (h : l2 ≠ []) :
    (l1 ++ l2).getLastD d = l2.getLastD d := by
  induction l1 with
  | nil => rfl
  | cons a rest ih =>
    have hne : rest ++ l2 ≠ [] := fun hx => h (List.append_eq_nil.mp hx).2
    calc ((a :: rest) ++ l2).getLastD d
        = (rest ++ l2).getLastD a := by rw [List.cons_append, List.getLastD_cons]
      _ = (rest ++ l2).getLastD d := getLastD_irrel (rest ++ l2) hne a d
      _ = l2.getLastD d := ih

theorem strEq_of_data {a b : String} (h : a.data = b.data) : a = b := by
  cases a
  cases b
  cases h
  rfl

theorem strContains_wrap (A br B : String) :
    strContains (((A ++ "\x27") ++ br) ++ ("\x27" ++ B)) (("\x27" ++ br) ++ "\x27") = true := by
  have h1 : ((A ++ "\x27") ++ br) ++ ("\x27" ++ B) = A ++ ((("\x27" ++ br) ++ "\x27") ++ B) :=
    strEq_of_data (by simp [strData_append, List.append_assoc])
  rw [h1]
  exact strContains_middle A (("\x27" ++ br) ++ "\x27") B

theorem loopSpec_nil (base wt br : String) (be : Bool) : LoopSpecStmt base wt br be [] := by
  intro env s
  refine ⟨[], Except.ok (), ?_, ?_, ?_, ?_, ?_⟩
  · simp [worktreeLoop, runPure]
  · simp [addResultsAux]
  · intro h
    exact absurd rfl h
  · intro _
    exact Or.inl rfl
  · intro e he hcf
    exact absurd he (by simp)

theorem loopSpec_cons (base wt br : String) (be : Bool) (attempt : Nat) (rest : List Nat)
    (hl : (attempt == maxRetries) = rest.isEmpty)
    (hrest : LoopSpecStmt base wt br be rest) :
    LoopSpecStmt base wt br be (attempt :: rest) := by
  cases be with
  | true =>
    intro env s
    have hacadd : isWorktreeAddCmd base (⟨["git", "-C", base, "worktree", "add", wt, br], none⟩ : Cmd) = true := by simp [isWorktreeAddCmd]
    cases ha : env s.trace.length (⟨["git", "-C", base, "worktree", "add", wt, br], none⟩ : Cmd) with
    | ok v =>
      refine ⟨[(⟨["git", "-C", base, "worktree", "add", wt, br], none⟩ : Cmd)], Except.ok (), ?_, ?_, ?_, ?_, ?_⟩
      · simp [worktreeLoop, runTryCatch, runBind, runExec, runPure, ha]
      · simp [addResultsAux, hacadd]
      · intro hx
        simp [addResultsAux, hacadd]
      · intro hx
        right
        simp [addResultsAux, hacadd, ha, okOrConflictE, isOkE]
      · intro e he hcf
        exact absurd he (by simp)
    | error e0 =>
      have houts1 : addResultsAux env base s.trace.length [(⟨["git", "-C", base, "worktree", "add", wt, br], none⟩ : Cmd)] = [Except.error e0] := by
        simp [addResultsAux, hacadd, ha]
      cases hc : strContains e0 "already used by worktree" with
      | true =>
        obtain ⟨tlc, bb, hcl, hnadd⟩ := cleanupStale_run base wt env
          { s with trace := s.trace ++ [(⟨["git", "-C", base, "worktree", "add", wt, br], none⟩ : Cmd)] }
        have hauxmid := addResultsAux_nil_of_noAdds env base tlc hnadd
        have houts3 : addResultsAux env base s.trace.length ([(⟨["git", "-C", base, "worktree", "add", wt, br], none⟩ : Cmd)] ++ tlc) =
            [Except.error e0] := by
          rw [addResultsAux_append, houts1]
          simp [hauxmid]
        cases bb with
        | false =>
          cases hemp : rest.isEmpty with
          | true =>
            have hrnil : rest = [] := by
              cases rest with
              | nil => rfl
              | cons x xs => simp at hemp
            subst hrnil
            refine ⟨[(⟨["git", "-C", base, "worktree", "add", wt, br], none⟩ : Cmd)] ++ tlc, Except.error ("Failed to create worktree: \x27" ++ br ++
              "\x27 is already used by a worktree and cleanup failed. Manual intervention may be required."),
              ?_, ?_, ?_, ?_, ?_⟩
            · simp [worktreeLoop, runTryCatch, runBind, runExec, runPure, runThrow, ha, hc, hcl, hl,
                List.append_assoc]
            · rw [houts3]
              simp
            · intro hx
              rw [houts3]
              simp
            · intro hout
              exact absurd hout (by simp)
            · intro e he hconf
              have hee : ("Failed to create worktree: \x27" ++ br ++
                  "\x27 is already used by a worktree and cleanup failed. Manual intervention may be required.") = e :=
                Except.error.inj he
              rw [← hee]
              rw [show ("Failed to create worktree: \x27" : String) =
                    "Failed to create worktree: " ++ "\x27" from rfl,
                show ("\x27 is already used by a worktree and cleanup failed. Manual intervention may be required." : String) =
                    "\x27" ++ " is already used by a worktree and cleanup failed. Manual intervention may be required." from rfl]
              exact strContains_wrap "Failed to create worktree: " br
                " is already used by a worktree and cleanup failed. Manual intervention may be required."
          | false =>
            have hrne : rest ≠ [] := by
              intro hx
              rw [hx] at hemp
              simp at hemp
            obtain ⟨tl2, out2, heq2, hlen2, hne2, hok2, herr2⟩ := hrest env (St.mk s.db ((s.trace ++ [(⟨["git", "-C", base, "worktree", "add", wt, br], none⟩ : Cmd)]) ++ tlc))
            have hKp : ((s.trace ++ [(⟨["git", "-C", base, "worktree", "add", wt, br], none⟩ : Cmd)]) ++ tlc).length = ((s.trace ++ [(⟨["git", "-C", base, "worktree", "add", wt, br], none⟩ : Cmd)]) ++ tlc).length := rfl
            rw [hKp] at hlen2 hne2 hok2 herr2
            have houtsne := hne2 hrne
            have hxeq := heq2
            simp [List.append_assoc] at hxeq
            have houts4 : addResultsAux env base s.trace.length (([(⟨["git", "-C", base, "worktree", "add", wt, br], none⟩ : Cmd)] ++ tlc) ++ tl2) =
                Except.error e0 :: addResultsAux env base (((s.trace ++ [(⟨["git", "-C", base, "worktree", "add", wt, br], none⟩ : Cmd)]) ++ tlc).length) tl2 := by
              rw [addResultsAux_append, houts3]
              have hK : s.trace.length + ([(⟨["git", "-C", base, "worktree", "add", wt, br], none⟩ : Cmd)] ++ tlc).length = ((s.trace ++ [(⟨["git", "-C", base, "worktree", "add", wt, br], none⟩ : Cmd)]) ++ tlc).length := by
                simp [Nat.add_assoc]
              rw [hK]
              rfl
            refine ⟨([(⟨["git", "-C", base, "worktree", "add", wt, br], none⟩ : Cmd)] ++ tlc) ++ tl2, out2, ?_, ?_, ?_, ?_, ?_⟩
            · simp [worktreeLoop, runTryCatch, runBind, runExec, runPure, ha, hc, hcl, hl, hemp, hxeq,
                List.append_assoc]
            · rw [houts4]
              simp only [List.length_cons]
              omega
            · intro hx
              rw [houts4]
              simp
            · intro hout
              right
              rw [houts4, show (Except.error e0 :: addResultsAux env base (((s.trace ++ [(⟨["git", "-C", base, "worktree", "add", wt, br], none⟩ : Cmd)]) ++ tlc).length) tl2) =
                  [Except.error e0] ++ addResultsAux env base (((s.trace ++ [(⟨["git", "-C", base, "worktree", "add", wt, br], none⟩ : Cmd)]) ++ tlc).length) tl2 from rfl,
                getLastD_append_ne _ _ _ houtsne]
              rcases hok2 hout with hnil | hgood
              · exact absurd hnil houtsne
              · exact hgood
            · intro e he hconf
              rw [houts4, show (Except.error e0 :: addResultsAux env base (((s.trace ++ [(⟨["git", "-C", base, "worktree", "add", wt, br], none⟩ : Cmd)]) ++ tlc).length) tl2) =
                  [Except.error e0] ++ addResultsAux env base (((s.trace ++ [(⟨["git", "-C", base, "worktree", "add", wt, br], none⟩ : Cmd)]) ++ tlc).length) tl2 from rfl,
                getLastD_append_ne _ _ _ houtsne] at hconf
              exact herr2 e he hconf
        | true =>
          cases hemp : rest.isEmpty with
          | true =>
            have hrnil : rest = [] := by
              cases rest with
              | nil => rfl
              | cons x xs => simp at hemp
            subst hrnil
            refine ⟨[(⟨["git", "-C", base, "worktree", "add", wt, br], none⟩ : Cmd)] ++ tlc, Except.ok (), ?_, ?_, ?_, ?_, ?_⟩
            · simp [worktreeLoop, runTryCatch, runBind, runExec, runPure, ha, hc, hcl, hl,
                List.append_assoc]
            · rw [houts3]
              simp
            · intro hx
              rw [houts3]
              simp
            · intro hout
              right
              rw [houts3]
              simp [okOrConflictE, isOkE, isConflictE, hc]
            · intro e he hconf
              exact absurd he (by simp)
          | false =>
            have hrne : rest ≠ [] := by
              intro hx
              rw [hx] at hemp
              simp at hemp
            obtain ⟨tl2, out2, heq2, hlen2, hne2, hok2, herr2⟩ := hrest env (St.mk s.db ((s.trace ++ [(⟨["git", "-C", base, "worktree", "add", wt, br], none⟩ : Cmd)]) ++ tlc))
            have hKp : ((s.trace ++ [(⟨["git", "-C", base, "worktree", "add", wt, br], none⟩ : Cmd)]) ++ tlc).length = ((s.trace ++ [(⟨["git", "-C", base, "worktree", "add", wt, br], none⟩ : Cmd)]) ++ tlc).length := rfl
            rw [hKp] at hlen2 hne2 hok2 herr2
            have houtsne := hne2 hrne
            have hxeq := heq2
            simp [List.append_assoc] at hxeq
            have houts4 : addResultsAux env base s.trace.length (([(⟨["git", "-C", base, "worktree", "add", wt, br], none⟩ : Cmd)] ++ tlc) ++ tl2) =
                Except.error e0 :: addResultsAux env base (((s.trace ++ [(⟨["git", "-C", base, "worktree", "add", wt, br], none⟩ : Cmd)]) ++ tlc).length) tl2 := by
              rw [addResultsAux_append, houts3]
              have hK : s.trace.length + ([(⟨["git", "-C", base, "worktree", "add", wt, br], none⟩ : Cmd)] ++ tlc).length = ((s.trace ++ [(⟨["git", "-C", base, "worktree", "add", wt, br], none⟩ : Cmd)]) ++ tlc).length := by
                simp [Nat.add_assoc]
              rw [hK]
              rfl
            refine ⟨([(⟨["git", "-C", base, "worktree", "add", wt, br], none⟩ : Cmd)] ++ tlc) ++ tl2, out2, ?_, ?_, ?_, ?_, ?_⟩
            · simp [worktreeLoop, runTryCatch, runBind, runExec, runPure, ha, hc, hcl, hl, hemp, hxeq,
                List.append_assoc]
            · rw [houts4]
              simp only [List.length_cons]
              omega
            · intro hx
              rw [houts4]
              simp
            · intro hout
              right
              rw [houts4, show (Except.error e0 :: addResultsAux env base (((s.trace ++ [(⟨["git", "-C", base, "worktree", "add", wt, br], none⟩ : Cmd)]) ++ tlc).length) tl2) =
                  [Except.error e0] ++ addResultsAux env base (((s.trace ++ [(⟨["git", "-C", base, "worktree", "add", wt, br], none⟩ : Cmd)]) ++ tlc).length) tl2 from rfl,
                getLastD_append_ne _ _ _ houtsne]
              rcases hok2 hout with hnil | hgood
              · exact absurd hnil houtsne
              · exact hgood
            · intro e he hconf
              rw [houts4, show (Except.error e0 :: addResultsAux env base (((s.trace ++ [(⟨["git", "-C", base, "worktree", "add", wt, br], none⟩ : Cmd)]) ++ tlc).length) tl2) =
                  [Except.error e0] ++ addResultsAux env base (((s.trace ++ [(⟨["git", "-C", base, "worktree", "add", wt, br], none⟩ : Cmd)]) ++ tlc).length) tl2 from rfl,
                getLastD_append_ne _ _ _ houtsne] at hconf
              exact herr2 e he hconf
      | false =>
        cases hemp : rest.isEmpty with
        | true =>
          have hrnil : rest = [] := by
            cases rest with
            | nil => rfl
            | cons x xs => simp at hemp
          subst hrnil
          refine ⟨[(⟨["git", "-C", base, "worktree", "add", wt, br], none⟩ : Cmd)], Except.error ("Failed to create worktree after " ++
            toString maxRetries ++ " attempts: " ++ e0), ?_, ?_, ?_, ?_, ?_⟩
          · simp [worktreeLoop, runTryCatch, runBind, runExec, runPure, runThrow, ha, hc, hl]
          · rw [houts1]
            simp
          · intro hx
            rw [houts1]
            simp
          · intro hout
            exact absurd hout (by simp)
          · intro e he hconf
            rw [houts1] at hconf
            simp [isConflictE, hc] at hconf
        | false =>
            have hrne : rest ≠ [] := by
              intro hx
              rw [hx] at hemp
              simp at hemp
            obtain ⟨tl2, out2, heq2, hlen2, hne2, hok2, herr2⟩ := hrest env (St.mk s.db (s.trace ++ [(⟨["git", "-C", base, "worktree", "add", wt, br], none⟩ : Cmd)]))
            have hKp : (s.trace ++ [(⟨["git", "-C", base, "worktree", "add", wt, br], none⟩ : Cmd)]).length = (s.trace ++ [(⟨["git", "-C", base, "worktree", "add", wt, br], none⟩ : Cmd)]).length := rfl
            rw [hKp] at hlen2 hne2 hok2 herr2
            have houtsne := hne2 hrne
            have hxeq := heq2
            simp [List.append_assoc] at hxeq
            have houts4 : addResultsAux env base s.trace.length (([(⟨["git", "-C", base, "worktree", "add", wt, br], none⟩ : Cmd)]) ++ tl2) =
                Except.error e0 :: addResultsAux env base ((s.trace ++ [(⟨["git", "-C", base, "worktree", "add", wt, br], none⟩ : Cmd)]).length) tl2 := by
              rw [addResultsAux_append, houts1]
              have hK : s.trace.length + ([(⟨["git", "-C", base, "worktree", "add", wt, br], none⟩ : Cmd)]).length = (s.trace ++ [(⟨["git", "-C", base, "worktree", "add", wt, br], none⟩ : Cmd)]).length := by
                simp [Nat.add_assoc]
              rw [hK]
              rfl
            refine ⟨([(⟨["git", "-C", base, "worktree", "add", wt, br], none⟩ : Cmd)]) ++ tl2, out2, ?_, ?_, ?_, ?_, ?_⟩
            · simp [worktreeLoop, runTryCatch, runBind, runExec, runPure, ha, hc, hl, hemp, hxeq,
                List.append_assoc]
            · rw [houts4]
              simp only [List.length_cons]
              omega
            · intro hx
              rw [houts4]
              simp
            · intro hout
              right
              rw [houts4, show (Except.error e0 :: addResultsAux env base ((s.trace ++ [(⟨["git", "-C", base, "worktree", "add", wt, br], none⟩ : Cmd)]).length) tl2) =
                  [Except.error e0] ++ addResultsAux env base ((s.trace ++ [(⟨["git", "-C", base, "worktree", "add", wt, br], none⟩ : Cmd)]).length) tl2 from rfl,
                getLastD_append_ne _ _ _ houtsne]
              rcases hok2 hout with hnil | hgood
              · exact absurd hnil houtsne
              · exact hgood
            · intro e he hconf
              rw [houts4, show (Except.error e0 :: addResultsAux env base ((s.trace ++ [(⟨["git", "-C", base, "worktree", "add", wt, br], none⟩ : Cmd)]).length) tl2) =
                  [Except.error e0] ++ addResultsAux env base ((s.trace ++ [(⟨["git", "-C", base, "worktree", "add", wt, br], none⟩ : Cmd)]).length) tl2 from rfl,
                getLastD_append_ne _ _ _ houtsne] at hconf
              exact herr2 e he hconf

  | false =>
    intro env s
    have hacadd : isWorktreeAddCmd base (⟨["git", "-C", base, "worktree", "add", "-b", br, wt], none⟩ : Cmd) = true := by simp [isWorktreeAddCmd]
    cases ha : env s.trace.length (⟨["git", "-C", base, "worktree", "add", "-b", br, wt], none⟩ : Cmd) with
    | ok v =>
      refine ⟨[(⟨["git", "-C", base, "worktree", "add", "-b", br, wt], none⟩ : Cmd)], Except.ok (), ?_, ?_, ?_, ?_, ?_⟩
      · simp [worktreeLoop, runTryCatch, runBind, runExec, runPure, ha]
      · simp [addResultsAux, hacadd]
      · intro hx
        simp [addResultsAux, hacadd]
      · intro hx
        right
        simp [addResultsAux, hacadd, ha, okOrConflictE, isOkE]
      · intro e he hcf
        exact absurd he (by simp)
    | error e0 =>
      have houts1 : addResultsAux env base s.trace.length [(⟨["git", "-C", base, "worktree", "add", "-b", br, wt], none⟩ : Cmd)] = [Except.error e0] := by
        simp [addResultsAux, hacadd, ha]
      cases hc : strContains e0 "already used by worktree" with
      | true =>
        obtain ⟨tlc, bb, hcl, hnadd⟩ := cleanupStale_run base wt env
          { s with trace := s.trace ++ [(⟨["git", "-C", base, "worktree", "add", "-b", br, wt], none⟩ : Cmd)] }
        have hauxmid := addResultsAux_nil_of_noAdds env base tlc hnadd
        have houts3 : addResultsAux env base s.trace.length ([(⟨["git", "-C", base, "worktree", "add", "-b", br, wt], none⟩ : Cmd)] ++ tlc) =
            [Except.error e0] := by
          rw [addResultsAux_append, houts1]
          simp [hauxmid]
        cases bb with
        | false =>
          cases hemp : rest.isEmpty with
          | true =>
            have hrnil : rest = [] := by
              cases rest with
              | nil => rfl
              | cons x xs => simp at hemp
            subst hrnil
            refine ⟨[(⟨["git", "-C", base, "worktree", "add", "-b", br, wt], none⟩ : Cmd)] ++ tlc, Except.error ("Failed to create worktree: \x27" ++ br ++
              "\x27 is already used by a worktree and cleanup failed. Manual intervention may be required."),
              ?_, ?_, ?_, ?_, ?_⟩
            · simp [worktreeLoop, runTryCatch, runBind, runExec, runPure, runThrow, ha, hc, hcl, hl,
                List.append_assoc]
            · rw [houts3]
              simp
            · intro hx
              rw [houts3]
              simp
            · intro hout
              exact absurd hout (by simp)
            · intro e he hconf
              have hee : ("Failed to create worktree: \x27" ++ br ++
                  "\x27 is already used by a worktree and cleanup failed. Manual intervention may be required.") = e :=
                Except.error.inj he
              rw [← hee]
              rw [show ("Failed to create worktree: \x27" : String) =
                    "Failed to create worktree: " ++ "\x27" from rfl,
                show ("\x27 is already used by a worktree and cleanup failed. Manual intervention may be required." : String) =
                    "\x27" ++ " is already used by a worktree and cleanup failed. Manual intervention may be required." from rfl]
              exact strContains_wrap "Failed to create worktree: " br
                " is already used by a worktree and cleanup failed. Manual intervention may be required."
          | false =>
            have hrne : rest ≠ [] := by
              intro hx
              rw [hx] at hemp
              simp at hemp
            obtain ⟨tl2, out2, heq2, hlen2, hne2, hok2, herr2⟩ := hrest env (St.mk s.db ((s.trace ++ [(⟨["git", "-C", base, "worktree", "add", "-b", br, wt], none⟩ : Cmd)]) ++ tlc))
            have hKp : ((s.trace ++ [(⟨["git", "-C", base, "worktree", "add", "-b", br, wt], none⟩ : Cmd)]) ++ tlc).length = ((s.trace ++ [(⟨["git", "-C", base, "worktree", "add", "-b", br, wt], none⟩ : Cmd)]) ++ tlc).length := rfl
            rw [hKp] at hlen2 hne2 hok2 herr2
            have houtsne := hne2 hrne
            have hxeq := heq2
            simp [List.append_assoc] at hxeq
            have houts4 : addResultsAux env base s.trace.length (([(⟨["git", "-C", base, "worktree", "add", "-b", br, wt], none⟩ : Cmd)] ++ tlc) ++ tl2) =
                Except.error e0 :: addResultsAux env base (((s.trace ++ [(⟨["git", "-C", base, "worktree", "add", "-b", br, wt], none⟩ : Cmd)]) ++ tlc).length) tl2 := by
              rw [addResultsAux_append, houts3]
              have hK : s.trace.length + ([(⟨["git", "-C", base, "worktree", "add", "-b", br, wt], none⟩ : Cmd)] ++ tlc).length = ((s.trace ++ [(⟨["git", "-C", base, "worktree", "add", "-b", br, wt], none⟩ : Cmd)]) ++ tlc).length := by
                simp [Nat.add_assoc]
              rw [hK]
              rfl
            refine ⟨([(⟨["git", "-C", base, "worktree", "add", "-b", br, wt], none⟩ : Cmd)] ++ tlc) ++ tl2, out2, ?_, ?_, ?_, ?_, ?_⟩
            · simp [worktreeLoop, runTryCatch, runBind, runExec, runPure, ha, hc, hcl, hl, hemp, hxeq,
                List.append_assoc]
            · rw [houts4]
              simp only [List.length_cons]
              omega
            · intro hx
              rw [houts4]
              simp
            · intro hout
              right
              rw [houts4, show (Except.error e0 :: addResultsAux env base (((s.trace ++ [(⟨["git", "-C", base, "worktree", "add", "-b", br, wt], none⟩ : Cmd)]) ++ tlc).length) tl2) =
                  [Except.error e0] ++ addResultsAux env base (((s.trace ++ [(⟨["git", "-C", base, "worktree", "add", "-b", br, wt], none⟩ : Cmd)]) ++ tlc).length) tl2 from rfl,
                getLastD_append_ne _ _ _ houtsne]
              rcases hok2 hout with hnil | hgood
              · exact absurd hnil houtsne
              · exact hgood
            · intro e he hconf
              rw [houts4, show (Except.error e0 :: addResultsAux env base (((s.trace ++ [(⟨["git", "-C", base, "worktree", "add", "-b", br, wt], none⟩ : Cmd)]) ++ tlc).length) tl2) =
                  [Except.error e0] ++ addResultsAux env base (((s.trace ++ [(⟨["git", "-C", base, "worktree", "add", "-b", br, wt], none⟩ : Cmd)]) ++ tlc).length) tl2 from rfl,
                getLastD_append_ne _ _ _ houtsne] at hconf
              exact herr2 e he hconf
        | true =>
          cases hemp : rest.isEmpty with
          | true =>
            have hrnil : rest = [] := by
              cases rest with
              | nil => rfl
              | cons x xs => simp at hemp
            subst hrnil
            refine ⟨[(⟨["git", "-C", base, "worktree", "add", "-b", br, wt], none⟩ : Cmd)] ++ tlc, Except.ok (), ?_, ?_, ?_, ?_, ?_⟩
            · simp [worktreeLoop, runTryCatch, runBind, runExec, runPure, ha, hc, hcl, hl,
                List.append_assoc]
            · rw [houts3]
              simp
            · intro hx
              rw [houts3]
              simp
            · intro hout
              right
              rw [houts3]
              simp [okOrConflictE, isOkE, isConflictE, hc]
            · intro e he hconf
              exact absurd he (by simp)
          | false =>
            have hrne : rest ≠ [] := by
              intro hx
              rw [hx] at hemp
              simp at hemp
            obtain ⟨tl2, out2, heq2, hlen2, hne2, hok2, herr2⟩ := hrest env (St.mk s.db ((s.trace ++ [(⟨["git", "-C", base, "worktree", "add", "-b", br, wt], none⟩ : Cmd)]) ++ tlc))
            have hKp : ((s.trace ++ [(⟨["git", "-C", base, "worktree", "add", "-b", br, wt], none⟩ : Cmd)]) ++ tlc).length = ((s.trace ++ [(⟨["git", "-C", base, "worktree", "add", "-b", br, wt], none⟩ : Cmd)]) ++ tlc).length := rfl
            rw [hKp] at hlen2 hne2 hok2 herr2
            have houtsne := hne2 hrne
            have hxeq := heq2
            simp [List.append_assoc] at hxeq
            have houts4 : addResultsAux env base s.trace.length (([(⟨["git", "-C", base, "worktree", "add", "-b", br, wt], none⟩ : Cmd)] ++ tlc) ++ tl2) =
                Except.error e0 :: addResultsAux env base (((s.trace ++ [(⟨["git", "-C", base, "worktree", "add", "-b", br, wt], none⟩ : Cmd)]) ++ tlc).length) tl2 := by
              rw [addResultsAux_append, houts3]
              have hK : s.trace.length + ([(⟨["git", "-C", base, "worktree", "add", "-b", br, wt], none⟩ : Cmd)] ++ tlc).length = ((s.trace ++ [(⟨["git", "-C", base, "worktree", "add", "-b", br, wt], none⟩ : Cmd)]) ++ tlc).length := by
                simp [Nat.add_assoc]
              rw [hK]
              rfl
            refine ⟨([(⟨["git", "-C", base, "worktree", "add", "-b", br, wt], none⟩ : Cmd)] ++ tlc) ++ tl2, out2, ?_, ?_, ?_, ?_, ?_⟩
            · simp [worktreeLoop, runTryCatch, runBind, runExec, runPure, ha, hc, hcl, hl, hemp, hxeq,
                List.append_assoc]
            · rw [houts4]
              simp only [List.length_cons]
              omega
            · intro hx
              rw [houts4]
              simp
            · intro hout
              right
              rw [houts4, show (Except.error e0 :: addResultsAux env base (((s.trace ++ [(⟨["git", "-C", base, "worktree", "add", "-b", br, wt], none⟩ : Cmd)]) ++ tlc).length) tl2) =
                  [Except.error e0] ++ addResultsAux env base (((s.trace ++ [(⟨["git", "-C", base, "worktree", "add", "-b", br, wt], none⟩ : Cmd)]) ++ tlc).length) tl2 from rfl,
                getLastD_append_ne _ _ _ houtsne]
              rcases hok2 hout with hnil | hgood
              · exact absurd hnil houtsne
              · exact hgood
            · intro e he hconf
              rw [houts4, show (Except.error e0 :: addResultsAux env base (((s.trace ++ [(⟨["git", "-C", base, "worktree", "add", "-b", br, wt], none⟩ : Cmd)]) ++ tlc).length) tl2) =
                  [Except.error e0] ++ addResultsAux env base (((s.trace ++ [(⟨["git", "-C", base, "worktree", "add", "-b", br, wt], none⟩ : Cmd)]) ++ tlc).length) tl2 from rfl,
                getLastD_append_ne _ _ _ houtsne] at hconf
              exact herr2 e he hconf
      | false =>
        cases hemp : rest.isEmpty with
        | true =>
          have hrnil : rest = [] := by
            cases rest with
            | nil => rfl
            | cons x xs => simp at hemp
          subst hrnil
          refine ⟨[(⟨["git", "-C", base, "worktree", "add", "-b", br, wt], none⟩ : Cmd)], Except.error ("Failed to create worktree after " ++
            toString maxRetries ++ " attempts: " ++ e0), ?_, ?_, ?_, ?_, ?_⟩
          · simp [worktreeLoop, runTryCatch, runBind, runExec, runPure, runThrow, ha, hc, hl]
          · rw [houts1]
            simp
          · intro hx
            rw [houts1]
            simp
          · intro hout
            exact absurd hout (by simp)
          · intro e he hconf
            rw [houts1] at hconf
            simp [isConflictE, hc] at hconf
        | false =>
            have hrne : rest ≠ [] := by
              intro hx
              rw [hx] at hemp
              simp at hemp
            obtain ⟨tl2, out2, heq2, hlen2, hne2, hok2, herr2⟩ := hrest env (St.mk s.db (s.trace ++ [(⟨["git", "-C", base, "worktree", "add", "-b", br, wt], none⟩ : Cmd)]))
            have hKp : (s.trace ++ [(⟨["git", "-C", base, "worktree", "add", "-b", br, wt], none⟩ : Cmd)]).length = (s.trace ++ [(⟨["git", "-C", base, "worktree", "add", "-b", br, wt], none⟩ : Cmd)]).length := rfl
            rw [hKp] at hlen2 hne2 hok2 herr2
            have houtsne := hne2 hrne
            have hxeq := heq2
            simp [List.append_assoc] at hxeq
            have houts4 : addResultsAux env base s.trace.length (([(⟨["git", "-C", base, "worktree", "add", "-b", br, wt], none⟩ : Cmd)]) ++ tl2) =
                Except.error e0 :: addResultsAux env base ((s.trace ++ [(⟨["git", "-C", base, "worktree", "add", "-b", br, wt], none⟩ : Cmd)]).length) tl2 := by
              rw [addResultsAux_append, houts1]
              have hK : s.trace.length + ([(⟨["git", "-C", base, "worktree", "add", "-b", br, wt], none⟩ : Cmd)]).length = (s.trace ++ [(⟨["git", "-C", base, "worktree", "add", "-b", br, wt], none⟩ : Cmd)]).length := by
                simp [Nat.add_assoc]
              rw [hK]
              rfl
            refine ⟨([(⟨["git", "-C", base, "worktree", "add", "-b", br, wt], none⟩ : Cmd)]) ++ tl2, out2, ?_, ?_, ?_, ?_, ?_⟩
            · simp [worktreeLoop, runTryCatch, runBind, runExec, runPure, ha, hc, hl, hemp, hxeq,
                List.append_assoc]
            · rw [houts4]
              simp only [List.length_cons]
              omega
            · intro hx
              rw [houts4]
              simp
            · intro hout
              right
              rw [houts4, show (Except.error e0 :: addResultsAux env base ((s.trace ++ [(⟨["git", "-C", base, "worktree", "add", "-b", br, wt], none⟩ : Cmd)]).length) tl2) =
                  [Except.error e0] ++ addResultsAux env base ((s.trace ++ [(⟨["git", "-C", base, "worktree", "add", "-b", br, wt], none⟩ : Cmd)]).length) tl2 from rfl,
                getLastD_append_ne _ _ _ houtsne]
              rcases hok2 hout with hnil | hgood
              · exact absurd hnil houtsne
              · exact hgood
            · intro e he hconf
              rw [houts4, show (Except.error e0 :: addResultsAux env base ((s.trace ++ [(⟨["git", "-C", base, "worktree", "add", "-b", br, wt], none⟩ : Cmd)]).length) tl2) =
                  [Except.error e0] ++ addResultsAux env base ((s.trace ++ [(⟨["git", "-C", base, "worktree", "add", "-b", br, wt], none⟩ : Cmd)]).length) tl2 from rfl,
                getLastD_append_ne _ _ _ houtsne] at hconf
              exact herr2 e he hconf


theorem loopSpec123 (base wt br : String) (be : Bool) : LoopSpecStmt base wt br be [1, 2, 3] :=
  loopSpec_cons base wt br be 1 [2, 3] rfl
    (loopSpec_cons base wt br be 2 [3] rfl
      (loopSpec_cons base wt br be 3 [] rfl (loopSpec_nil base wt br be)))

theorem c2_finish (env : Env) (base wt br : String) (be : Bool) (db : RepoDB) (pre : List Cmd)
    (hnoadd : pre.all (fun c => !isWorktreeAddCmd base c) = true) :
    ∃ out tl, worktreeLoop base wt br be [1, 2, 3] env ⟨db, pre⟩ = (out, ⟨db, pre ++ tl⟩) ∧
      LoopConcl env base br out (addResults env base (pre ++ tl)) ∧
      (out = Except.ok () → addResults env base (pre ++ tl) ≠ []) := by
  obtain ⟨tl, out, heq, hlen, hne, hok, herr⟩ := loopSpec123 base wt br be env ⟨db, pre⟩
  have hKp : ((⟨db, pre⟩ : St)).trace.length = pre.length := rfl
  rw [hKp] at hlen hne hok herr
  have hout : addResults env base (pre ++ tl) = addResultsAux env base pre.length tl := by
    unfold addResults
    rw [addResultsAux_append, addResultsAux_nil_of_noAdds env base pre hnoadd 0]
    simp
  refine ⟨out, tl, heq, ?_, ?_⟩
  · unfold LoopConcl
    rw [hout]
    exact ⟨by simpa using hlen, hok, herr⟩
  · intro hx
    rw [hout]
    exact hne (by simp)

theorem phase2_spec (env : Env) (base wt br : String) (db : RepoDB) (pre : List Cmd)
    (hnoadd : pre.all (fun c => !isWorktreeAddCmd base c) = true) :
    ∃ out tl, worktreePhase2 base wt br env ⟨db, pre⟩ = (out, ⟨db, pre ++ tl⟩) ∧
      LoopConcl env base br out (addResults env base (pre ++ tl)) ∧
      (out = Except.ok () → addResults env base (pre ++ tl) ≠ []) := by
  have hp1na : (pre ++ [(⟨["git", "-C", base, "rev-parse", "--verify", "refs/heads/" ++ br], none⟩ : Cmd)]).all
      (fun c => !isWorktreeAddCmd base c) = true := by
    rw [List.all_append, hnoadd]
    rfl
  have hp2na : ((pre ++ [(⟨["git", "-C", base, "rev-parse", "--verify", "refs/heads/" ++ br], none⟩ : Cmd)]) ++
      [(⟨["git", "-C", base, "rev-parse", "--verify", "refs/remotes/origin/" ++ br], none⟩ : Cmd)]).all
      (fun c => !isWorktreeAddCmd base c) = true := by
    rw [List.all_append, hp1na]
    rfl
  cases hp1 : env pre.length
      ⟨["git", "-C", base, "rev-parse", "--verify", "refs/heads/" ++ br], none⟩ with
  | ok o1 =>
    obtain ⟨out, tl, heq, hconcl, hne⟩ := c2_finish env base wt br true db
      (pre ++ [⟨["git", "-C", base, "rev-parse", "--verify", "refs/heads/" ++ br], none⟩]) hp1na
    have hx := heq
    simp [List.append_assoc] at hx
    refine ⟨out, [⟨["git", "-C", base, "rev-parse", "--verify", "refs/heads/" ++ br], none⟩] ++ tl,
      ?_, ?_, ?_⟩
    · simp [worktreePhase2, runTryCatch, runBind, runExec, runPure, hp1, hx, List.append_assoc]
    · have hc := hconcl
      rw [List.append_assoc] at hc
      exact hc
    · have hn := hne
      rw [List.append_assoc] at hn
      exact hn
  | error e1 =>
    cases hp2 : env (pre.length + 1)
        ⟨["git", "-C", base, "rev-parse", "--verify", "refs/remotes/origin/" ++ br], none⟩ with
    | ok o2 =>
      obtain ⟨out, tl, heq, hconcl, hne⟩ := c2_finish env base wt br true db
        ((pre ++ [⟨["git", "-C", base, "rev-parse", "--verify", "refs/heads/" ++ br], none⟩]) ++
          [⟨["git", "-C", base, "rev-parse", "--verify", "refs/remotes/origin/" ++ br], none⟩]) hp2na
      have hx := heq
      simp [List.append_assoc] at hx
      refine ⟨out, ([⟨["git", "-C", base, "rev-parse", "--verify", "refs/heads/" ++ br], none⟩] ++
        ([⟨["git", "-C", base, "rev-parse", "--verify", "refs/remotes/origin/" ++ br], none⟩] ++ tl)),
        ?_, ?_, ?_⟩
      · simp [worktreePhase2, runTryCatch, runBind, runExec, runPure, hp1, hp2, hx, List.append_assoc]
      · have hc := hconcl
        rw [List.append_assoc, List.append_assoc] at hc
        exact hc
      · have hn := hne
        rw [List.append_assoc, List.append_assoc] at hn
        exact hn
    | error e2 =>
      obtain ⟨out, tl, heq, hconcl, hne⟩ := c2_finish env base wt br false db
        ((pre ++ [⟨["git", "-C", base, "rev-parse", "--verify", "refs/heads/" ++ br], none⟩]) ++
          [⟨["git", "-C", base, "rev-parse", "--verify", "refs/remotes/origin/" ++ br], none⟩]) hp2na
      have hx := heq
      simp [List.append_assoc] at hx
      refine ⟨out, ([⟨["git", "-C", base, "rev-parse", "--verify", "refs/heads/" ++ br], none⟩] ++
        ([⟨["git", "-C", base, "rev-parse", "--verify", "refs/remotes/origin/" ++ br], none⟩] ++ tl)),
        ?_, ?_, ?_⟩
      · simp [worktreePhase2, runTryCatch, runBind, runExec, runPure, hp1, hp2, hx, List.append_assoc]
      · have hc := hconcl
        rw [List.append_assoc, List.append_assoc] at hc
        exact hc
      · have hn := hne
        rw [List.append_assoc, List.append_assoc] at hn
        exact hn

theorem c2_error_leaf (env : Env) (base br e : String) (tr : List Cmd)
    (hnoadd : tr.all (fun c => !isWorktreeAddCmd base c) = true) :
    LoopConcl env base br (Except.error e) (addResults env base tr) ∧
    ((Except.error e : Except String Unit) = Except.ok () → addResults env base tr ≠ []) := by
  have h0 : addResults env base tr = [] := addResultsAux_nil_of_noAdds env base tr hnoadd 0
  refine ⟨⟨?_, ?_, ?_⟩, ?_⟩
  · rw [h0]
    simp
  · intro h
    exact absurd h (by simp)
  · intro e2 he2 hconf
    rw [h0] at hconf
    simp [isConflictE] at hconf
  · intro h
    exact absurd h (by simp)

/-- CLAIM C2 (amended): every `createWorktreeSafely` run leaves the store untouched,
makes at most 3 worktree-add attempts, returns normally only when the final attempt
either succeeded or failed with the worktree conflict (its cleanup having succeeded),
and any error thrown while the final attempt hit the conflict quotes the branch name. -/
theorem claim_C2_retry_loop_amended (env : Env) (db : RepoDB) (base wt br : String) :
    ∃ out tr, createWorktreeSafely base wt br env ⟨db, []⟩ = (out, ⟨db, tr⟩) ∧
      LoopConcl env base br out (addResults env base tr) ∧
      (out = Except.ok () → addResults env base tr ≠ []) := by
  cases hh : env 0 ⟨["git", "-C", base, "rev-parse", "--abbrev-ref", "HEAD"], none⟩ with
  | error e0 =>
    refine ⟨Except.error e0, [⟨["git", "-C", base, "rev-parse", "--abbrev-ref", "HEAD"], none⟩], ?_, ?_, ?_⟩
    · simp [createWorktreeSafely, runBind, runExec, runTryCatch, runPure, hh,
        List.append_assoc]
    · exact (c2_error_leaf env base br e0 [⟨["git", "-C", base, "rev-parse", "--abbrev-ref", "HEAD"], none⟩] (by rfl)).1
    · exact (c2_error_leaf env base br e0 [⟨["git", "-C", base, "rev-parse", "--abbrev-ref", "HEAD"], none⟩] (by rfl)).2
  | ok hv =>
    by_cases hcond : trimStr hv = br
    · cases h1 : env 1 ⟨["git", "-C", base, "rev-parse", "--abbrev-ref", "origin/HEAD"], none⟩ with
      | ok r =>
        cases h2 : env 2 ⟨["git", "-C", base, "checkout", replaceFirst (trimStr r) "origin/" ""], none⟩ with
        | ok o2 =>
          obtain ⟨out, tl, heq, hconcl, hne⟩ := phase2_spec env base wt br db [⟨["git", "-C", base, "rev-parse", "--abbrev-ref", "HEAD"], none⟩, ⟨["git", "-C", base, "rev-parse", "--abbrev-ref", "origin/HEAD"], none⟩, ⟨["git", "-C", base, "checkout", replaceFirst (trimStr r) "origin/" ""], none⟩] (by rfl)
          have hx := heq
          simp [List.append_assoc] at hx
          refine ⟨out, [⟨["git", "-C", base, "rev-parse", "--abbrev-ref", "HEAD"], none⟩, ⟨["git", "-C", base, "rev-parse", "--abbrev-ref", "origin/HEAD"], none⟩, ⟨["git", "-C", base, "checkout", replaceFirst (trimStr r) "origin/" ""], none⟩] ++ tl, ?_, ?_, ?_⟩
          · simp [createWorktreeSafely, runBind, runExec, runTryCatch, runPure, hh, hcond, h1, h2, hx,
              List.append_assoc]
          · exact hconcl
          · exact hne
        | error e2 =>
          cases h3 : env 3 ⟨["git", "-C", base, "checkout", "main"], none⟩ with
          | ok o3 =>
            obtain ⟨out, tl, heq, hconcl, hne⟩ := phase2_spec env base wt br db [⟨["git", "-C", base, "rev-parse", "--abbrev-ref", "HEAD"], none⟩, ⟨["git", "-C", base, "rev-parse", "--abbrev-ref", "origin/HEAD"], none⟩, ⟨["git", "-C", base, "checkout", replaceFirst (trimStr r) "origin/" ""], none⟩, ⟨["git", "-C", base, "checkout", "main"], none⟩] (by rfl)
            have hx := heq
            simp [List.append_assoc] at hx
            refine ⟨out, [⟨["git", "-C", base, "rev-parse", "--abbrev-ref", "HEAD"], none⟩, ⟨["git", "-C", base, "rev-parse", "--abbrev-ref", "origin/HEAD"], none⟩, ⟨["git", "-C", base, "checkout", replaceFirst (trimStr r) "origin/" ""], none⟩, ⟨["git", "-C", base, "checkout", "main"], none⟩] ++ tl, ?_, ?_, ?_⟩
            · simp [createWorktreeSafely, runBind, runExec, runTryCatch, runPure, hh, hcond, h1, h2, h3, hx,
                List.append_assoc]
            · exact hconcl
            · exact hne
          | error e3 =>
            refine ⟨Except.error e3, [⟨["git", "-C", base, "rev-parse", "--abbrev-ref", "HEAD"], none⟩, ⟨["git", "-C", base, "rev-parse", "--abbrev-ref", "origin/HEAD"], none⟩, ⟨["git", "-C", base, "checkout", replaceFirst (trimStr r) "origin/" ""], none⟩, ⟨["git", "-C", base, "checkout", "main"], none⟩], ?_, ?_, ?_⟩
            · simp [createWorktreeSafely, runBind, runExec, runTryCatch, runPure, hh, hcond, h1, h2, h3,
                List.append_assoc]
            · exact (c2_error_leaf env base br e3 [⟨["git", "-C", base, "rev-parse", "--abbrev-ref", "HEAD"], none⟩, ⟨["git", "-C", base, "rev-parse", "--abbrev-ref", "origin/HEAD"], none⟩, ⟨["git", "-C", base, "checkout", replaceFirst (trimStr r) "origin/" ""], none⟩, ⟨["git", "-C", base, "checkout", "main"], none⟩] (by rfl)).1
            · exact (c2_error_leaf env base br e3 [⟨["git", "-C", base, "rev-parse", "--abbrev-ref", "HEAD"], none⟩, ⟨["git", "-C", base, "rev-parse", "--abbrev-ref", "origin/HEAD"], none⟩, ⟨["git", "-C", base, "checkout", replaceFirst (trimStr r) "origin/" ""], none⟩, ⟨["git", "-C", base, "checkout", "main"], none⟩] (by rfl)).2
      | error r1 =>
        cases h2 : env 2 ⟨["git", "-C", base, "checkout", "main"], none⟩ with
        | ok o2 =>
          obtain ⟨out, tl, heq, hconcl, hne⟩ := phase2_spec env base wt br db [⟨["git", "-C", base, "rev-parse", "--abbrev-ref", "HEAD"], none⟩, ⟨["git", "-C", base, "rev-parse", "--abbrev-ref", "origin/HEAD"], none⟩, ⟨["git", "-C", base, "checkout", "main"], none⟩] (by rfl)
          have hx := heq
          simp [List.append_assoc] at hx
          refine ⟨out, [⟨["git", "-C", base, "rev-parse", "--abbrev-ref", "HEAD"], none⟩, ⟨["git", "-C", base, "rev-parse", "--abbrev-ref", "origin/HEAD"], none⟩, ⟨["git", "-C", base, "checkout", "main"], none⟩] ++ tl, ?_, ?_, ?_⟩
          · simp [createWorktreeSafely, runBind, runExec, runTryCatch, runPure, hh, hcond, h1, h2, hx,
              List.append_assoc]
          · exact hconcl
          · exact hne
        | error e2 =>
          cases h3 : env 3 ⟨["git", "-C", base, "checkout", "main"], none⟩ with
          | ok o3 =>
            obtain ⟨out, tl, heq, hconcl, hne⟩ := phase2_spec env base wt br db [⟨["git", "-C", base, "rev-parse", "--abbrev-ref", "HEAD"], none⟩, ⟨["git", "-C", base, "rev-parse", "--abbrev-ref", "origin/HEAD"], none⟩, ⟨["git", "-C", base, "checkout", "main"], none⟩, ⟨["git", "-C", base, "checkout", "main"], none⟩] (by rfl)
            have hx := heq
            simp [List.append_assoc] at hx
            refine ⟨out, [⟨["git", "-C", base, "rev-parse", "--abbrev-ref", "HEAD"], none⟩, ⟨["git", "-C", base, "rev-parse", "--abbrev-ref", "origin/HEAD"], none⟩, ⟨["git", "-C", base, "checkout", "main"], none⟩, ⟨["git", "-C", base, "checkout", "main"], none⟩] ++ tl, ?_, ?_, ?_⟩
            · simp [createWorktreeSafely, runBind, runExec, runTryCatch, runPure, hh, hcond, h1, h2, h3, hx,
                List.append_assoc]
            · exact hconcl
            · exact hne
          | error e3 =>
            refine ⟨Except.error e3, [⟨["git", "-C", base, "rev-parse", "--abbrev-ref", "HEAD"], none⟩, ⟨["git", "-C", base, "rev-parse", "--abbrev-ref", "origin/HEAD"], none⟩, ⟨["git", "-C", base, "checkout", "main"], none⟩, ⟨["git", "-C", base, "checkout", "main"], none⟩], ?_, ?_, ?_⟩
            · simp [createWorktreeSafely, runBind, runExec, runTryCatch, runPure, hh, hcond, h1, h2, h3,
                List.append_assoc]
            · exact (c2_error_leaf env base br e3 [⟨["git", "-C", base, "rev-parse", "--abbrev-ref", "HEAD"], none⟩, ⟨["git", "-C", base, "rev-parse", "--abbrev-ref", "origin/HEAD"], none⟩, ⟨["git", "-C", base, "checkout", "main"], none⟩, ⟨["git", "-C", base, "checkout", "main"], none⟩] (by rfl)).1
            · exact (c2_error_leaf env base br e3 [⟨["git", "-C", base, "rev-parse", "--abbrev-ref", "HEAD"], none⟩, ⟨["git", "-C", base, "rev-parse", "--abbrev-ref", "origin/HEAD"], none⟩, ⟨["git", "-C", base, "checkout", "main"], none⟩, ⟨["git", "-C", base, "checkout", "main"], none⟩] (by rfl)).2
    · -- HEAD does not report the requested branch: no switch, straight to phase 2
      obtain ⟨out, tl, heq, hconcl, hne⟩ := phase2_spec env base wt br db [⟨["git", "-C", base, "rev-parse", "--abbrev-ref", "HEAD"], none⟩] (by rfl)
      have hx := heq
      simp [List.append_assoc] at hx
      refine ⟨out, [⟨["git", "-C", base, "rev-parse", "--abbrev-ref", "HEAD"], none⟩] ++ tl, ?_, ?_, ?_⟩
      · simp [createWorktreeSafely, runBind, runExec, runTryCatch, runPure, hh, hcond, hx,
          List.append_assoc]
      · exact hconcl
      · exact hne

/-- Witness for the amended retry-loop claim at a concrete oracle. -/
theorem claim_C2_retry_loop_amended_witness :
    ∃ out tr, createWorktreeSafely "base" "wt" "feat" envConflict ⟨db0, []⟩ = (out, ⟨db0, tr⟩) ∧
      LoopConcl envConflict "base" "feat" out (addResults envConflict "base" tr) ∧
      (out = Except.ok () → addResults envConflict "base" tr ≠ []) :=
  claim_C2_retry_loop_amended envConflict db0 "base" "wt" "feat"

/-- Counterexample to C2 as stated: with every add answered by the worktree conflict and
every cleanup succeeding, the run returns normally (no throw) although all three add
attempts failed — an exit path that returns without a successful worktree creation. -/
theorem claim_C2_counterexample :
    isOkE (createWorktreeSafely "base" "wt" "feat" envConflict ⟨db0, []⟩).1 = true ∧
    ((createWorktreeSafely "base" "wt" "feat" envConflict ⟨db0, []⟩).2.trace.filter
      (fun c => isWorktreeAddCmd "base" c)).length = 3 ∧
    (addResults envConflict "base"
      ((createWorktreeSafely "base" "wt" "feat" envConflict ⟨db0, []⟩).2.trace)).all
      (fun rr => isErr rr) = true := by
  refine ⟨?_, ?_, ?_⟩
  · decide
  · decide
  · decide


theorem dbNeutral_pure {α : Type} (a : α) : DbNeutral (pure a : M α) :=
  fun _ _ => rfl

theorem dbNeutral_throw {α : Type} (msg : String) : DbNeutral (throwM msg : M α) :=
  fun _ _ => rfl

theorem dbNeutral_exec (argv : List String) (cwd : Option String) :
    DbNeutral (executeCommand argv cwd) :=
  fun _ _ => rfl

theorem dbNeutral_bind {α β : Type} {m : M α} {f : α → M β}
    (hm : DbNeutral m) (hf : ∀ a, DbNeutral (f a)) : DbNeutral (m >>= f) := by
  intro env s
  rw [runBind]
  cases h : m env s with
  | mk out s1 =>
    cases out with
    | ok a =>
      have h1 : s1.db = s.db := by
        have hx := hm env s; rw [h] at hx; exact hx
      have h2 : ((f a env s1).2).db = s1.db := hf a env s1
      exact h2.trans h1
    | error e =>
      have hx := hm env s; rw [h] at hx; exact hx

theorem dbNeutral_tryCatch {α : Type} {body : M α} {handler : String → M α}
    (hb : DbNeutral body) (hh : ∀ e, DbNeutral (handler e)) :
    DbNeutral (tryCatchM body handler) := by
  intro env s
  rw [runTryCatch]
  cases h : body env s with
  | mk out s1 =>
    cases out with
    | ok a =>
      have hx := hb env s; rw [h] at hx; exact hx
    | error e =>
      have h1 : s1.db = s.db := by
        have hx := hb env s; rw [h] at hx; exact hx
      exact (hh e env s1).trans h1

theorem dbNeutral_ite {α : Type} {c : Prop} [Decidable c] {a b : M α}
    (ha : DbNeutral a) (hb : DbNeutral b) : DbNeutral (if c then a else b) := by
  by_cases h : c
  · rw [if_pos h]; exact ha
  · rw [if_neg h]; exact hb

theorem dbNeutral_pruneWorktreeReferences (b : String) :
    DbNeutral (pruneWorktreeReferences b) := by
  unfold pruneWorktreeReferences
  exact dbNeutral_tryCatch
    (dbNeutral_bind (dbNeutral_exec _ _) (fun _ => dbNeutral_pure _))
    (fun _ => dbNeutral_pure _)

theorem dbNeutral_cleanupLines (b w : String) (l : List String) :
    DbNeutral (cleanupLines b w l) := by
  induction l with
  | nil =>
    unfold cleanupLines
    exact dbNeutral_bind (dbNeutral_pruneWorktreeReferences b) (fun _ => dbNeutral_pure _)
  | cons line rest ih =>
    unfold cleanupLines
    exact dbNeutral_ite
      (dbNeutral_bind (dbNeutral_exec _ _) (fun _ => dbNeutral_pure _)) ih

theorem dbNeutral_cleanupStaleWorktree (b w : String) :
    DbNeutral (cleanupStaleWorktree b w) := by
  unfold cleanupStaleWorktree
  exact dbNeutral_tryCatch
    (dbNeutral_bind (dbNeutral_exec _ _) (fun a => dbNeutral_cleanupLines b w _))
    (fun _ => dbNeutral_pure _)

theorem dbNeutral_worktreeLoop (b w br : String) (be : Bool) (atts : List Nat) :
    DbNeutral (worktreeLoop b w br be atts) := by
  induction atts with
  | nil => exact dbNeutral_pure _
  | cons attempt rest ih =>
    unfold worktreeLoop
    refine dbNeutral_tryCatch ?_ (fun e => ?_)
    · cases be with
      | true => exact dbNeutral_bind (dbNeutral_exec _ _) (fun _ => dbNeutral_pure _)
      | false => exact dbNeutral_bind (dbNeutral_exec _ _) (fun _ => dbNeutral_pure _)
    · refine dbNeutral_ite ?_ (dbNeutral_ite (dbNeutral_throw _) ih)
      exact dbNeutral_bind (dbNeutral_cleanupStaleWorktree b w)
        (fun cleaned => dbNeutral_ite (dbNeutral_throw _) ih)

theorem dbNeutral_worktreePhase2 (b w br : String) : DbNeutral (worktreePhase2 b w br) := by
  unfold worktreePhase2
  refine dbNeutral_bind ?_ (fun be => dbNeutral_worktreeLoop b w br be _)
  exact dbNeutral_tryCatch
    (dbNeutral_bind (dbNeutral_exec _ _) (fun _ => dbNeutral_pure _))
    (fun _ => dbNeutral_tryCatch
      (dbNeutral_bind (dbNeutral_exec _ _) (fun _ => dbNeutral_pure _))
      (fun _ => dbNeutral_pure _))

theorem dbNeutral_createWorktreeSafely (b w br : String) :
    DbNeutral (createWorktreeSafely b w br) := by
  unfold createWorktreeSafely
  refine dbNeutral_bind (dbNeutral_exec _ _) (fun cur => ?_)
  refine dbNeutral_ite ?_
    (dbNeutral_bind (dbNeutral_pure _) (fun _ => dbNeutral_worktreePhase2 b w br))
  refine dbNeutral_bind
    (dbNeutral_tryCatch
      (dbNeutral_bind (dbNeutral_exec _ _) (fun _ => dbNeutral_pure _))
      (fun _ => dbNeutral_pure _))
    (fun d => ?_)
  refine dbNeutral_bind ?_ (fun _ => dbNeutral_worktreePhase2 b w br)
  exact dbNeutral_tryCatch
    (dbNeutral_bind (dbNeutral_exec _ _) (fun _ => dbNeutral_pure _))
    (fun _ => dbNeutral_bind (dbNeutral_exec _ _) (fun _ => dbNeutral_pure _))

theorem dbNeutral_removeIfExists (cfg : Config) (w t : String) :
    DbNeutral (removeIfExists cfg w t) := by
  unfold removeIfExists
  refine dbNeutral_bind (dbNeutral_exec _ _) (fun we => ?_)
  refine dbNeutral_ite ?_ (dbNeutral_pure _)
  refine dbNeutral_tryCatch ?_ (fun _ => dbNeutral_throw _)
  refine dbNeutral_bind (dbNeutral_exec _ _) (fun _ => ?_)
  refine dbNeutral_bind (dbNeutral_exec _ _) (fun vr => ?_)
  exact dbNeutral_ite (dbNeutral_throw _) (dbNeutral_pure _)

theorem dbNeutral_cloneDefaultAndBranch (cfg : Config) (br cu wdn : String) :
    DbNeutral (cloneDefaultAndBranch cfg br cu wdn) := by
  unfold cloneDefaultAndBranch
  refine dbNeutral_bind (dbNeutral_exec _ _) (fun _ => ?_)
  refine dbNeutral_bind
    (dbNeutral_tryCatch
      (dbNeutral_bind (dbNeutral_exec _ _) (fun _ => dbNeutral_pure _))
      (fun _ => dbNeutral_pure _))
    (fun lbe => ?_)
  exact dbNeutral_ite
    (dbNeutral_bind (dbNeutral_exec _ _) (fun _ => dbNeutral_pure _))
    (dbNeutral_bind (dbNeutral_exec _ _) (fun _ => dbNeutral_pure _))

theorem dbNeutral_branchSwitchInBase (cfg : Config) (bdn br : String) :
    DbNeutral (branchSwitchInBase cfg bdn br) := by
  unfold branchSwitchInBase
  refine dbNeutral_bind (dbNeutral_exec _ _) (fun _ => ?_)
  refine dbNeutral_bind
    (dbNeutral_tryCatch
      (dbNeutral_bind (dbNeutral_exec _ _) (fun _ => dbNeutral_pure _))
      (fun _ => dbNeutral_pure _))
    (fun rbe => ?_)
  refine dbNeutral_bind
    (dbNeutral_tryCatch
      (dbNeutral_bind (dbNeutral_exec _ _) (fun _ => dbNeutral_pure _))
      (fun _ => dbNeutral_pure _))
    (fun lbe => ?_)
  exact dbNeutral_ite
    (dbNeutral_bind (dbNeutral_exec _ _) (fun _ => dbNeutral_pure _))
    (dbNeutral_ite
      (dbNeutral_bind (dbNeutral_exec _ _) (fun _ => dbNeutral_pure _))
      (dbNeutral_bind (dbNeutral_exec _ _) (fun _ => dbNeutral_pure _)))

theorem dbNeutral_worktreeArm (cfg : Config) (br rn wdn : String) :
    DbNeutral (worktreeArm cfg br rn wdn) := by
  unfold worktreeArm
  refine dbNeutral_bind (dbNeutral_exec _ _) (fun _ => ?_)
  refine dbNeutral_bind (dbNeutral_createWorktreeSafely _ _ _) (fun _ => ?_)
  refine dbNeutral_bind
    (dbNeutral_tryCatch
      (dbNeutral_bind (dbNeutral_exec _ _) (fun _ => dbNeutral_pure _))
      (fun _ => dbNeutral_pure _))
    (fun wv => ?_)
  exact dbNeutral_ite
    (dbNeutral_bind (dbNeutral_throw _) (fun _ => dbNeutral_pure _))
    (dbNeutral_bind (dbNeutral_pure _) (fun _ => dbNeutral_pure _))

theorem dbNeutral_separateCloneArm (cfg : Config) (br cu wdn : String) :
    DbNeutral (separateCloneArm cfg br cu wdn) := by
  unfold separateCloneArm
  refine dbNeutral_bind (dbNeutral_removeIfExists _ _ _) (fun _ => ?_)
  refine dbNeutral_bind ?_ (fun _ => dbNeutral_pure _)
  refine dbNeutral_tryCatch
    (dbNeutral_bind (dbNeutral_exec _ _) (fun _ => dbNeutral_pure _))
    (fun e => ?_)
  exact dbNeutral_ite (dbNeutral_throw _) (dbNeutral_cloneDefaultAndBranch _ _ _ _)

theorem dbNeutral_freshClonePart (cfg : Config) (branch : Option String) (cu wdn : String) :
    DbNeutral (freshClonePart cfg branch cu wdn) := by
  unfold freshClonePart
  refine dbNeutral_bind (dbNeutral_removeIfExists _ _ _) (fun _ => ?_)
  refine dbNeutral_bind ?_ (fun _ => dbNeutral_pure _)
  refine dbNeutral_tryCatch
    (dbNeutral_bind (dbNeutral_exec _ _) (fun _ => dbNeutral_pure _))
    (fun e => ?_)
  exact dbNeutral_ite (dbNeutral_throw _)
    (dbNeutral_ite (dbNeutral_cloneDefaultAndBranch _ _ _ _) (dbNeutral_throw _))

theorem neverSome_pure_none : NeverSome (pure (none : Option Repo) : M (Option Repo)) := by
  intro env s v h
  rw [runPure] at h
  exact Option.noConfusion (Except.ok.inj h)

theorem neverSome_bind {α : Type} {m : M α} {f : α → M (Option Repo)}
    (hf : ∀ a, NeverSome (f a)) : NeverSome (m >>= f) := by
  intro env s v h
  rw [runBind] at h
  cases hm : m env s with
  | mk out s1 =>
    rw [hm] at h
    cases out with
    | ok a => exact hf a env s1 v h
    | error e => exact Except.noConfusion h

theorem neverSome_ite {c : Prop} [Decidable c] {a b : M (Option Repo)}
    (ha : NeverSome a) (hb : NeverSome b) : NeverSome (if c then a else b) := by
  by_cases h : c
  · rw [if_pos h]; exact ha
  · rw [if_neg h]; exact hb

theorem neverSome_worktreeArm (cfg : Config) (br rn wdn : String) :
    NeverSome (worktreeArm cfg br rn wdn) := by
  unfold worktreeArm
  refine neverSome_bind (fun _ => ?_)
  refine neverSome_bind (fun _ => ?_)
  refine neverSome_bind (fun wv => ?_)
  exact neverSome_ite
    (neverSome_bind (fun _ => neverSome_pure_none))
    (neverSome_bind (fun _ => neverSome_pure_none))

theorem neverSome_separateCloneArm (cfg : Config) (br cu wdn : String) :
    NeverSome (separateCloneArm cfg br cu wdn) := by
  unfold separateCloneArm
  exact neverSome_bind (fun _ => neverSome_bind (fun _ => neverSome_pure_none))

theorem neverSome_freshClonePart (cfg : Config) (branch : Option String) (cu wdn : String) :
    NeverSome (freshClonePart cfg branch cu wdn) := by
  unfold freshClonePart
  exact neverSome_bind (fun _ => neverSome_bind (fun _ => neverSome_pure_none))

theorem updStatus_cons (i : Nat) (st : String) (a : Repo) (t : List Repo) :
    updStatus i st (a :: t) =
      (if a.id == i then { a with cloneStatus := st } else a) :: updStatus i st t := rfl

theorem updStatus_idem (i : Nat) (st : String) (l : List Repo) :
    updStatus i st (updStatus i st l) = updStatus i st l := by
  induction l with
  | nil => rfl
  | cons a t ih =>
    cases h : (a.id == i) with
    | true => simp [updStatus_cons, h, ih]
    | false => simp [updStatus_cons, h, ih]

theorem filter_updStatus (i : Nat) (st : String) (l : List Repo) :
    (updStatus i st l).filter (fun r => r.id != i) = l.filter (fun r => r.id != i) := by
  induction l with
  | nil => rfl
  | cons a t ih =>
    cases h : (a.id == i) with
    | true =>
      simp only [bne] at ih
      simp [updStatus_cons, List.filter_cons, bne, h, ih]
    | false =>
      simp only [bne] at ih
      simp [updStatus_cons, List.filter_cons, bne, h, ih]

theorem updStatus_noop (i : Nat) (st : String) (l : List Repo)
    (h : ∀ r ∈ l, r.id ≠ i) : updStatus i st l = l := by
  have hm : l.map (fun r => if r.id == i then { r with cloneStatus := st } else r)
      = l.map id := by
    apply List.map_congr_left
    intro a ha
    have hne : (a.id == i) = false := by
      simpa using h a ha
    simp [hne]
  simpa [updStatus] using hm

theorem updStatus_append (i : Nat) (st : String) (l1 l2 : List Repo) :
    updStatus i st (l1 ++ l2) = updStatus i st l1 ++ updStatus i st l2 := by
  simp [updStatus]

theorem filter_neId_append (i : Nat) (l1 l2 : List Repo) :
    (l1 ++ l2).filter (fun r => r.id != i) =
      l1.filter (fun r => r.id != i) ++ l2.filter (fun r => r.id != i) := by
  simp

theorem filter_neId_self (i : Nat) (l : List Repo) (h : ∀ r ∈ l, r.id ≠ i) :
    l.filter (fun r => r.id != i) = l := by
  rw [List.filter_eq_self]
  intro r hr
  simpa using h r hr

theorem find?_append_none {α : Type} (p : α → Bool) (l1 l2 : List α)
    (h : l1.find? p = none) : (l1 ++ l2).find? p = l2.find? p := by
  rw [List.find?_append, h]
  rfl

theorem armSpec_of_neutral {i : Nat} {ready : Repo} {m : M (Option Repo)}
    (hn : DbNeutral m) (hns : NeverSome m) : ArmSpec i ready m := by
  intro env s
  refine ⟨?_, Or.inl ?_, fun v h => absurd h (hns env s v)⟩
  · rw [hn env s]
  · rw [hn env s]

theorem armSpec_bind {α : Type} {i : Nat} {ready : Repo} {m : M α} {f : α → M (Option Repo)}
    (hm : DbNeutral m) (hf : ∀ a, ArmSpec i ready (f a)) : ArmSpec i ready (m >>= f) := by
  intro env s
  rw [runBind]
  cases h : m env s with
  | mk out s1 =>
    have hdb : s1.db = s.db := by
      have hx := hm env s; rw [h] at hx; exact hx
    cases out with
    | ok a =>
      obtain ⟨hA, hB, hC⟩ := hf a env s1
      rw [hdb] at hA hB hC
      exact ⟨hA, hB, hC⟩
    | error e =>
      exact ⟨congrArg RepoDB.nextId hdb, Or.inl (congrArg RepoDB.rows hdb),
        fun v hv => Except.noConfusion hv⟩

theorem armSpec_tryCatch {i : Nat} {ready : Repo} {body : M (Option Repo)}
    {handler : String → M (Option Repo)}
    (hb : ArmSpec i ready body) (hh : ∀ e, ArmSpec i ready (handler e)) :
    ArmSpec i ready (tryCatchM body handler) := by
  intro env s
  rw [runTryCatch]
  cases h : body env s with
  | mk out s1 =>
    obtain ⟨hA, hB, hC⟩ := hb env s
    rw [h] at hA hB hC
    cases out with
    | ok a => exact ⟨hA, hB, fun v hv => hC v hv⟩
    | error e =>
      obtain ⟨hA2, hB2, hC2⟩ := hh e env s1
      have hmix : ∀ rows2, rows2 = s1.db.rows ∨ rows2 = updStatus i "ready" s1.db.rows →
          rows2 = s.db.rows ∨ rows2 = updStatus i "ready" s.db.rows := by
        intro rows2 h2
        cases h2 with
        | inl h2 =>
          rw [h2]
          cases hB with
          | inl h1 => exact Or.inl h1
          | inr h1 => exact Or.inr h1
        | inr h2 =>
          rw [h2]
          cases hB with
          | inl h1 =>
            have h1x : s1.db.rows = s.db.rows := h1
            rw [h1x]
            exact Or.inr rfl
          | inr h1 =>
            have h1x : s1.db.rows = updStatus i "ready" s.db.rows := h1
            rw [h1x, updStatus_idem]
            exact Or.inr rfl
      refine ⟨hA2.trans hA, hmix _ hB2, fun v hv => ?_⟩
      obtain ⟨hveq, hrows⟩ := hC2 v hv
      refine ⟨hveq, ?_⟩
      have hup := hmix _ (Or.inr hrows)
      rw [hrows]
      cases hB with
      | inl h1 =>
        have h1x : s1.db.rows = s.db.rows := h1
        rw [h1x]
      | inr h1 =>
        have h1x : s1.db.rows = updStatus i "ready" s.db.rows := h1
        rw [h1x, updStatus_idem]

theorem armSpec_ite {i : Nat} {ready : Repo} {c : Prop} [Decidable c] {a b : M (Option Repo)}
    (ha : ArmSpec i ready a) (hb : ArmSpec i ready b) : ArmSpec i ready (if c then a else b) := by
  by_cases h : c
  · rw [if_pos h]; exact ha
  · rw [if_neg h]; exact hb

theorem armSpec_terminal (i : Nat) (ready : Repo) :
    ArmSpec i ready (updateRepoStatusM i "ready" >>= fun _ => pure (some ready)) := by
  intro env s
  refine ⟨rfl, Or.inr rfl, fun v hv => ⟨?_, rfl⟩⟩
  exact (Option.some.inj (Except.ok.inj hv)).symm

theorem armSpec_freshClone (cfg : Config) (branch : Option String) (cu wdn : String)
    (i : Nat) (ready : Repo) : ArmSpec i ready (freshClonePart cfg branch cu wdn) :=
  armSpec_of_neutral (dbNeutral_freshClonePart cfg branch cu wdn)
    (neverSome_freshClonePart cfg branch cu wdn)

theorem armSpec_defaultCloneArm (cfg : Config) (branch : Option String)
    (cu bdn wdn be : String) (repo : Repo) :
    ArmSpec repo.id { repo with cloneStatus := "ready" }
      (defaultCloneArm cfg branch cu bdn wdn be repo) := by
  unfold defaultCloneArm
  refine armSpec_ite ?_ (armSpec_freshClone _ _ _ _ _ _)
  refine armSpec_bind
    (dbNeutral_tryCatch
      (dbNeutral_bind (dbNeutral_exec _ _) (fun _ => dbNeutral_pure _))
      (fun _ => dbNeutral_pure _))
    (fun ivr => ?_)
  refine armSpec_ite ?_ ?_
  · exact armSpec_ite
      (armSpec_bind (dbNeutral_branchSwitchInBase _ _ _) (fun _ => armSpec_terminal _ _))
      (armSpec_bind (dbNeutral_pure _) (fun _ => armSpec_terminal _ _))
  · exact armSpec_bind (dbNeutral_exec _ _) (fun _ => armSpec_freshClone _ _ _ _ _ _)

theorem armSpec_armDispatch (cfg : Config) (repoUrl : String) (branch : Option String)
    (useWorktree : Bool) (repoName wdn be : String) (repo : Repo) :
    ArmSpec repo.id { repo with cloneStatus := "ready" }
      (armDispatch useWorktree branch be
        (worktreeArm cfg (branch.getD "") repoName wdn)
        (separateCloneArm cfg (branch.getD "") (mkCloneUrl cfg repoUrl) wdn)
        (defaultCloneArm cfg branch (mkCloneUrl cfg repoUrl) repoName wdn be repo)) := by
  unfold armDispatch
  refine armSpec_ite
    (armSpec_of_neutral (dbNeutral_worktreeArm _ _ _ _) (neverSome_worktreeArm _ _ _ _)) ?_
  exact armSpec_ite
    (armSpec_of_neutral (dbNeutral_separateCloneArm _ _ _ _) (neverSome_separateCloneArm _ _ _ _))
    (armSpec_defaultCloneArm _ _ _ _ _ _ _)

theorem bodySpec_cloneRepoBody (cfg : Config) (repoUrl : String) (branch : Option String)
    (useWorktree : Bool) (repoName wdn be : String) (repo : Repo) :
    BodySpec repo.id { repo with cloneStatus := "ready" }
      (cloneRepoBody cfg repoUrl branch useWorktree repoName wdn be repo) := by
  intro env s
  have harm := armSpec_armDispatch cfg repoUrl branch useWorktree repoName wdn be repo env s
  simp only [cloneRepoBody]
  rw [runBind]
  cases hd : armDispatch useWorktree branch be
      (worktreeArm cfg (branch.getD "") repoName wdn)
      (separateCloneArm cfg (branch.getD "") (mkCloneUrl cfg repoUrl) wdn)
      (defaultCloneArm cfg branch (mkCloneUrl cfg repoUrl) repoName wdn be repo) env s with
  | mk out s1 =>
    obtain ⟨hA, hB, hC⟩ := harm
    rw [hd] at hA hB hC
    cases out with
    | ok res =>
      cases res with
      | some r =>
        obtain ⟨hveq, hrows⟩ := hC r rfl
        exact ⟨hA, hB, fun v hv => ⟨((Except.ok.inj hv).symm).trans hveq, hrows⟩⟩
      | none =>
        have hrows2 : updStatus repo.id "ready" s1.db.rows =
            updStatus repo.id "ready" s.db.rows := by
          cases hB with
          | inl h1 =>
            have h1x : s1.db.rows = s.db.rows := h1
            rw [h1x]
          | inr h1 =>
            have h1x : s1.db.rows = updStatus repo.id "ready" s.db.rows := h1
            rw [h1x, updStatus_idem]
        exact ⟨hA, Or.inr hrows2,
          fun v hv => ⟨(Except.ok.inj hv).symm, hrows2⟩⟩
    | error e =>
      exact ⟨hA, hB, fun v hv => Except.noConfusion hv⟩

/-- C1: whenever `cloneRepo` propagates an error, the compensating delete has restored
the row list exactly (under the store invariant that existing ids differ from the next
id), and in particular no row for the requested `(repositoryUrl, branch)` with
`cloneStatus` still `cloning` survives the failed call. -/
theorem claim_C1_compensating_delete (cfg : Config) (repoUrl : String)
    (branch : Option String) (useWorktree : Bool) (env : Env) (s : St) (e : String)
    (hfresh : ∀ q ∈ s.db.rows, q.id ≠ s.db.nextId)
    (herr : (cloneRepo cfg repoUrl branch useWorktree env s).1 = Except.error e) :
    (cloneRepo cfg repoUrl branch useWorktree env s).2.db.rows = s.db.rows ∧
    ∀ r ∈ (cloneRepo cfg repoUrl branch useWorktree env s).2.db.rows,
      repoMatches repoUrl branch r = true → r.cloneStatus ≠ "cloning" := by
  cases hfind : s.db.rows.find? (repoMatches repoUrl branch) with
  | some r0 =>
    have hrun : (cloneRepo cfg repoUrl branch useWorktree env s).1 = Except.ok r0 := by
      simp [cloneRepo, runBind, getRepoByUrlAndBranchM, hfind, runPure]
    rw [hrun] at herr
    exact Except.noConfusion herr
  | none =>
    have hnomatch := List.find?_eq_none.mp hfind
    have hrows : (cloneRepo cfg repoUrl branch useWorktree env s).2.db.rows = s.db.rows := by
      cases hbe : env s.trace.length ⟨["bash", "-c", "test -d " ++ extractRepoName cfg.now repoUrl ++ " && echo exists || echo missing"], some (resolve1 cfg.reposPath)⟩ with
      | error e0 =>
        simp [cloneRepo, runBind, getRepoByUrlAndBranchM, hfind, executeCommand, hbe]
      | ok v =>
        have hpre : cloneRepo cfg repoUrl branch useWorktree env s =
            tryCatchM (cloneRepoBody cfg repoUrl branch useWorktree (extractRepoName cfg.now repoUrl) (if optTruthy branch && useWorktree then extractRepoName cfg.now repoUrl ++ "-" ++ sanitizeBranch (branch.getD "") else extractRepoName cfg.now repoUrl) v (repoOfInput s.db.nextId (mkCreateRepoInput repoUrl (if optTruthy branch && useWorktree then extractRepoName cfg.now repoUrl ++ "-" ++ sanitizeBranch (branch.getD "") else extractRepoName cfg.now repoUrl) branch (shouldUseWorktreeFlag useWorktree branch v) cfg.now)))
              (fun e2 => do
                deleteRepoM ((repoOfInput s.db.nextId (mkCreateRepoInput repoUrl (if optTruthy branch && useWorktree then extractRepoName cfg.now repoUrl ++ "-" ++ sanitizeBranch (branch.getD "") else extractRepoName cfg.now repoUrl) branch (shouldUseWorktreeFlag useWorktree branch v) cfg.now))).id
                throwM e2) env (St.mk (RepoDB.mk (s.db.rows ++ [(repoOfInput s.db.nextId (mkCreateRepoInput repoUrl (if optTruthy branch && useWorktree then extractRepoName cfg.now repoUrl ++ "-" ++ sanitizeBranch (branch.getD "") else extractRepoName cfg.now repoUrl) branch (shouldUseWorktreeFlag useWorktree branch v) cfg.now))]) (s.db.nextId + 1)) (s.trace ++ [⟨["bash", "-c", "test -d " ++ extractRepoName cfg.now repoUrl ++ " && echo exists || echo missing"], some (resolve1 cfg.reposPath)⟩])) := by
          simp [cloneRepo, runBind, getRepoByUrlAndBranchM, hfind, executeCommand, hbe,
            createRepoM]
        obtain ⟨hA, hB, hC⟩ :=
          bodySpec_cloneRepoBody cfg repoUrl branch useWorktree (extractRepoName cfg.now repoUrl) (if optTruthy branch && useWorktree then extractRepoName cfg.now repoUrl ++ "-" ++ sanitizeBranch (branch.getD "") else extractRepoName cfg.now repoUrl) v (repoOfInput s.db.nextId (mkCreateRepoInput repoUrl (if optTruthy branch && useWorktree then extractRepoName cfg.now repoUrl ++ "-" ++ sanitizeBranch (branch.getD "") else extractRepoName cfg.now repoUrl) branch (shouldUseWorktreeFlag useWorktree branch v) cfg.now)) env (St.mk (RepoDB.mk (s.db.rows ++ [(repoOfInput s.db.nextId (mkCreateRepoInput repoUrl (if optTruthy branch && useWorktree then extractRepoName cfg.now repoUrl ++ "-" ++ sanitizeBranch (branch.getD "") else extractRepoName cfg.now repoUrl) branch (shouldUseWorktreeFlag useWorktree branch v) cfg.now))]) (s.db.nextId + 1)) (s.trace ++ [⟨["bash", "-c", "test -d " ++ extractRepoName cfg.now repoUrl ++ " && echo exists || echo missing"], some (resolve1 cfg.reposPath)⟩]))
        cases hb : cloneRepoBody cfg repoUrl branch useWorktree (extractRepoName cfg.now repoUrl) (if optTruthy branch && useWorktree then extractRepoName cfg.now repoUrl ++ "-" ++ sanitizeBranch (branch.getD "") else extractRepoName cfg.now repoUrl) v (repoOfInput s.db.nextId (mkCreateRepoInput repoUrl (if optTruthy branch && useWorktree then extractRepoName cfg.now repoUrl ++ "-" ++ sanitizeBranch (branch.getD "") else extractRepoName cfg.now repoUrl) branch (shouldUseWorktreeFlag useWorktree branch v) cfg.now)) env (St.mk (RepoDB.mk (s.db.rows ++ [(repoOfInput s.db.nextId (mkCreateRepoInput repoUrl (if optTruthy branch && useWorktree then extractRepoName cfg.now repoUrl ++ "-" ++ sanitizeBranch (branch.getD "") else extractRepoName cfg.now repoUrl) branch (shouldUseWorktreeFlag useWorktree branch v) cfg.now))]) (s.db.nextId + 1)) (s.trace ++ [⟨["bash", "-c", "test -d " ++ extractRepoName cfg.now repoUrl ++ " && echo exists || echo missing"], some (resolve1 cfg.reposPath)⟩])) with
        | mk outb s3 =>
          rw [hb] at hA hB hC
          cases outb with
          | ok a =>
            rw [hpre, runTryCatch, hb] at herr
            exact Except.noConfusion herr
          | error e2 =>
            rw [hpre, runTryCatch, hb]
            show s3.db.rows.filter (fun r => r.id != ((repoOfInput s.db.nextId (mkCreateRepoInput repoUrl (if optTruthy branch && useWorktree then extractRepoName cfg.now repoUrl ++ "-" ++ sanitizeBranch (branch.getD "") else extractRepoName cfg.now repoUrl) branch (shouldUseWorktreeFlag useWorktree branch v) cfg.now))).id) = s.db.rows
            have hid : ((repoOfInput s.db.nextId (mkCreateRepoInput repoUrl (if optTruthy branch && useWorktree then extractRepoName cfg.now repoUrl ++ "-" ++ sanitizeBranch (branch.getD "") else extractRepoName cfg.now repoUrl) branch (shouldUseWorktreeFlag useWorktree branch v) cfg.now))).id = s.db.nextId := rfl
            have hflt : s.db.rows.filter (fun r => r.id != ((repoOfInput s.db.nextId (mkCreateRepoInput repoUrl (if optTruthy branch && useWorktree then extractRepoName cfg.now repoUrl ++ "-" ++ sanitizeBranch (branch.getD "") else extractRepoName cfg.now repoUrl) branch (shouldUseWorktreeFlag useWorktree branch v) cfg.now))).id) = s.db.rows :=
              filter_neId_self _ _ (fun q hq => by rw [hid]; exact hfresh q hq)
            have hsingle : ([(repoOfInput s.db.nextId (mkCreateRepoInput repoUrl (if optTruthy branch && useWorktree then extractRepoName cfg.now repoUrl ++ "-" ++ sanitizeBranch (branch.getD "") else extractRepoName cfg.now repoUrl) branch (shouldUseWorktreeFlag useWorktree branch v) cfg.now))] : List Repo).filter
                (fun r => r.id != ((repoOfInput s.db.nextId (mkCreateRepoInput repoUrl (if optTruthy branch && useWorktree then extractRepoName cfg.now repoUrl ++ "-" ++ sanitizeBranch (branch.getD "") else extractRepoName cfg.now repoUrl) branch (shouldUseWorktreeFlag useWorktree branch v) cfg.now))).id) = [] := by simp
            cases hB with
            | inl h1 =>
              have h1x : s3.db.rows = s.db.rows ++ [(repoOfInput s.db.nextId (mkCreateRepoInput repoUrl (if optTruthy branch && useWorktree then extractRepoName cfg.now repoUrl ++ "-" ++ sanitizeBranch (branch.getD "") else extractRepoName cfg.now repoUrl) branch (shouldUseWorktreeFlag useWorktree branch v) cfg.now))] := h1
              rw [h1x, filter_neId_append, hflt, hsingle, List.append_nil]
            | inr h1 =>
              have h1x : s3.db.rows =
                  updStatus ((repoOfInput s.db.nextId (mkCreateRepoInput repoUrl (if optTruthy branch && useWorktree then extractRepoName cfg.now repoUrl ++ "-" ++ sanitizeBranch (branch.getD "") else extractRepoName cfg.now repoUrl) branch (shouldUseWorktreeFlag useWorktree branch v) cfg.now))).id "ready" (s.db.rows ++ [(repoOfInput s.db.nextId (mkCreateRepoInput repoUrl (if optTruthy branch && useWorktree then extractRepoName cfg.now repoUrl ++ "-" ++ sanitizeBranch (branch.getD "") else extractRepoName cfg.now repoUrl) branch (shouldUseWorktreeFlag useWorktree branch v) cfg.now))]) := h1
              rw [h1x, filter_updStatus, filter_neId_append, hflt, hsingle, List.append_nil]
    refine ⟨hrows, fun r hr hm => ?_⟩
    rw [hrows] at hr
    exact absurd hm (hnomatch r hr)

/-- Witness for the compensating delete: a fresh-id store, a failing clone oracle, and
the restored row list. -/
theorem claim_C1_compensating_delete_witness :
    (cloneRepo cfg0 "https://example.com/b.git" none false envFailClone ⟨dbOne, []⟩).2.db.rows
      = dbOne.rows ∧
    ∀ r ∈ (cloneRepo cfg0 "https://example.com/b.git" none false envFailClone
        ⟨dbOne, []⟩).2.db.rows,
      repoMatches "https://example.com/b.git" none r = true → r.cloneStatus ≠ "cloning" :=
  claim_C1_compensating_delete cfg0 "https://example.com/b.git" none false envFailClone
    ⟨dbOne, []⟩ "boom" (by decide) (by rfl)

/-- C3: the idempotent short-circuit.  First, when a row for `(repositoryUrl, branch)`
exists, `cloneRepo` returns it with the state — store and command trace — bit-for-bit
unchanged, so no directory inspection, insertion or git command happens.  Second, a
successful call followed by a second call with the same arguments (under the fresh-id
store invariant, with the branch argument absent or truthy as the service receives it)
returns the same row again, whatever the second oracle would answer. -/
theorem claim_C3_idempotent_short_circuit (cfg : Config) (repoUrl : String)
    (branch : Option String) (useWorktree : Bool) :
    (∀ env s r0, s.db.rows.find? (repoMatches repoUrl branch) = some r0 →
      cloneRepo cfg repoUrl branch useWorktree env s = (Except.ok r0, s)) ∧
    (∀ env env2 s s1 r,
      (∀ q ∈ s.db.rows, q.id ≠ s.db.nextId) →
      (branch = none ∨ optTruthy branch = true) →
      cloneRepo cfg repoUrl branch useWorktree env s = (Except.ok r, s1) →
      cloneRepo cfg repoUrl branch useWorktree env2 s1 = (Except.ok r, s1)) := by
  constructor
  · intro env s r0 hfind
    simp [cloneRepo, runBind, getRepoByUrlAndBranchM, hfind, runPure]
  · intro env env2 s s1 r hfresh hbr hok
    cases hfind : s.db.rows.find? (repoMatches repoUrl branch) with
    | some r0 =>
      have hrun : cloneRepo cfg repoUrl branch useWorktree env s = (Except.ok r0, s) := by
        simp [cloneRepo, runBind, getRepoByUrlAndBranchM, hfind, runPure]
      rw [hrun] at hok
      have hv : r0 = r := Except.ok.inj (congrArg Prod.fst hok)
      have hs : s = s1 := congrArg Prod.snd hok
      subst hs
      rw [← hv]
      simp [cloneRepo, runBind, getRepoByUrlAndBranchM, hfind, runPure]
    | none =>
      cases hbe : env s.trace.length ⟨["bash", "-c", "test -d " ++ extractRepoName cfg.now repoUrl ++ " && echo exists || echo missing"], some (resolve1 cfg.reposPath)⟩ with
      | error e0 =>
        have hrun : (cloneRepo cfg repoUrl branch useWorktree env s).1 = Except.error e0 := by
          simp [cloneRepo, runBind, getRepoByUrlAndBranchM, hfind, executeCommand, hbe]
        rw [hok] at hrun
        exact Except.noConfusion hrun
      | ok v =>
        have hpre : cloneRepo cfg repoUrl branch useWorktree env s =
            tryCatchM (cloneRepoBody cfg repoUrl branch useWorktree (extractRepoName cfg.now repoUrl) (if optTruthy branch && useWorktree then extractRepoName cfg.now repoUrl ++ "-" ++ sanitizeBranch (branch.getD "") else extractRepoName cfg.now repoUrl) v (repoOfInput s.db.nextId (mkCreateRepoInput repoUrl (if optTruthy branch && useWorktree then extractRepoName cfg.now repoUrl ++ "-" ++ sanitizeBranch (branch.getD "") else extractRepoName cfg.now repoUrl) branch (shouldUseWorktreeFlag useWorktree branch v) cfg.now)))
              (fun e2 => do
                deleteRepoM ((repoOfInput s.db.nextId (mkCreateRepoInput repoUrl (if optTruthy branch && useWorktree then extractRepoName cfg.now repoUrl ++ "-" ++ sanitizeBranch (branch.getD "") else extractRepoName cfg.now repoUrl) branch (shouldUseWorktreeFlag useWorktree branch v) cfg.now))).id
                throwM e2) env (St.mk (RepoDB.mk (s.db.rows ++ [(repoOfInput s.db.nextId (mkCreateRepoInput repoUrl (if optTruthy branch && useWorktree then extractRepoName cfg.now repoUrl ++ "-" ++ sanitizeBranch (branch.getD "") else extractRepoName cfg.now repoUrl) branch (shouldUseWorktreeFlag useWorktree branch v) cfg.now))]) (s.db.nextId + 1)) (s.trace ++ [⟨["bash", "-c", "test -d " ++ extractRepoName cfg.now repoUrl ++ " && echo exists || echo missing"], some (resolve1 cfg.reposPath)⟩])) := by
          simp [cloneRepo, runBind, getRepoByUrlAndBranchM, hfind, executeCommand, hbe,
            createRepoM]
        obtain ⟨hA, hB, hC⟩ :=
          bodySpec_cloneRepoBody cfg repoUrl branch useWorktree (extractRepoName cfg.now repoUrl) (if optTruthy branch && useWorktree then extractRepoName cfg.now repoUrl ++ "-" ++ sanitizeBranch (branch.getD "") else extractRepoName cfg.now repoUrl) v (repoOfInput s.db.nextId (mkCreateRepoInput repoUrl (if optTruthy branch && useWorktree then extractRepoName cfg.now repoUrl ++ "-" ++ sanitizeBranch (branch.getD "") else extractRepoName cfg.now repoUrl) branch (shouldUseWorktreeFlag useWorktree branch v) cfg.now)) env (St.mk (RepoDB.mk (s.db.rows ++ [(repoOfInput s.db.nextId (mkCreateRepoInput repoUrl (if optTruthy branch && useWorktree then extractRepoName cfg.now repoUrl ++ "-" ++ sanitizeBranch (branch.getD "") else extractRepoName cfg.now repoUrl) branch (shouldUseWorktreeFlag useWorktree branch v) cfg.now))]) (s.db.nextId + 1)) (s.trace ++ [⟨["bash", "-c", "test -d " ++ extractRepoName cfg.now repoUrl ++ " && echo exists || echo missing"], some (resolve1 cfg.reposPath)⟩]))
        cases hb : cloneRepoBody cfg repoUrl branch useWorktree (extractRepoName cfg.now repoUrl) (if optTruthy branch && useWorktree then extractRepoName cfg.now repoUrl ++ "-" ++ sanitizeBranch (branch.getD "") else extractRepoName cfg.now repoUrl) v (repoOfInput s.db.nextId (mkCreateRepoInput repoUrl (if optTruthy branch && useWorktree then extractRepoName cfg.now repoUrl ++ "-" ++ sanitizeBranch (branch.getD "") else extractRepoName cfg.now repoUrl) branch (shouldUseWorktreeFlag useWorktree branch v) cfg.now)) env (St.mk (RepoDB.mk (s.db.rows ++ [(repoOfInput s.db.nextId (mkCreateRepoInput repoUrl (if optTruthy branch && useWorktree then extractRepoName cfg.now repoUrl ++ "-" ++ sanitizeBranch (branch.getD "") else extractRepoName cfg.now repoUrl) branch (shouldUseWorktreeFlag useWorktree branch v) cfg.now))]) (s.db.nextId + 1)) (s.trace ++ [⟨["bash", "-c", "test -d " ++ extractRepoName cfg.now repoUrl ++ " && echo exists || echo missing"], some (resolve1 cfg.reposPath)⟩])) with
        | mk outb s3 =>
          rw [hb] at hA hB hC
          cases outb with
          | error e2 =>
            rw [hpre, runTryCatch, hb] at hok
            exact Except.noConfusion (congrArg Prod.fst hok)
          | ok a =>
            rw [hpre, runTryCatch, hb] at hok
            have hv : a = r := Except.ok.inj (congrArg Prod.fst hok)
            have hs : s3 = s1 := congrArg Prod.snd hok
            obtain ⟨hveq, hrows⟩ := hC a rfl
            have hid : ((repoOfInput s.db.nextId (mkCreateRepoInput repoUrl (if optTruthy branch && useWorktree then extractRepoName cfg.now repoUrl ++ "-" ++ sanitizeBranch (branch.getD "") else extractRepoName cfg.now repoUrl) branch (shouldUseWorktreeFlag useWorktree branch v) cfg.now))).id = s.db.nextId := rfl
            have hnoop : updStatus ((repoOfInput s.db.nextId (mkCreateRepoInput repoUrl (if optTruthy branch && useWorktree then extractRepoName cfg.now repoUrl ++ "-" ++ sanitizeBranch (branch.getD "") else extractRepoName cfg.now repoUrl) branch (shouldUseWorktreeFlag useWorktree branch v) cfg.now))).id "ready" s.db.rows = s.db.rows :=
              updStatus_noop _ _ _ (fun q hq => by rw [hid]; exact hfresh q hq)
            have hsing : updStatus ((repoOfInput s.db.nextId (mkCreateRepoInput repoUrl (if optTruthy branch && useWorktree then extractRepoName cfg.now repoUrl ++ "-" ++ sanitizeBranch (branch.getD "") else extractRepoName cfg.now repoUrl) branch (shouldUseWorktreeFlag useWorktree branch v) cfg.now))).id "ready" [(repoOfInput s.db.nextId (mkCreateRepoInput repoUrl (if optTruthy branch && useWorktree then extractRepoName cfg.now repoUrl ++ "-" ++ sanitizeBranch (branch.getD "") else extractRepoName cfg.now repoUrl) branch (shouldUseWorktreeFlag useWorktree branch v) cfg.now))] = [{ (repoOfInput s.db.nextId (mkCreateRepoInput repoUrl (if optTruthy branch && useWorktree then extractRepoName cfg.now repoUrl ++ "-" ++ sanitizeBranch (branch.getD "") else extractRepoName cfg.now repoUrl) branch (shouldUseWorktreeFlag useWorktree branch v) cfg.now)) with cloneStatus := "ready" }] := by
              simp [updStatus]
            have hrows1 : s1.db.rows = s.db.rows ++ [{ (repoOfInput s.db.nextId (mkCreateRepoInput repoUrl (if optTruthy branch && useWorktree then extractRepoName cfg.now repoUrl ++ "-" ++ sanitizeBranch (branch.getD "") else extractRepoName cfg.now repoUrl) branch (shouldUseWorktreeFlag useWorktree branch v) cfg.now)) with cloneStatus := "ready" }] := by
              rw [← hs]
              have hx : s3.db.rows =
                  updStatus ((repoOfInput s.db.nextId (mkCreateRepoInput repoUrl (if optTruthy branch && useWorktree then extractRepoName cfg.now repoUrl ++ "-" ++ sanitizeBranch (branch.getD "") else extractRepoName cfg.now repoUrl) branch (shouldUseWorktreeFlag useWorktree branch v) cfg.now))).id "ready" (s.db.rows ++ [(repoOfInput s.db.nextId (mkCreateRepoInput repoUrl (if optTruthy branch && useWorktree then extractRepoName cfg.now repoUrl ++ "-" ++ sanitizeBranch (branch.getD "") else extractRepoName cfg.now repoUrl) branch (shouldUseWorktreeFlag useWorktree branch v) cfg.now))]) := hrows
              rw [hx, updStatus_append, hnoop, hsing]
            have hp : repoMatches repoUrl branch ({ (repoOfInput s.db.nextId (mkCreateRepoInput repoUrl (if optTruthy branch && useWorktree then extractRepoName cfg.now repoUrl ++ "-" ++ sanitizeBranch (branch.getD "") else extractRepoName cfg.now repoUrl) branch (shouldUseWorktreeFlag useWorktree branch v) cfg.now)) with cloneStatus := "ready" }) = true := by
              cases hbr with
              | inl hb0 =>
                subst hb0
                simp [repoMatches, repoOfInput, mkCreateRepoInput, optTruthy]
              | inr hb1 =>
                simp [repoMatches, repoOfInput, mkCreateRepoInput, hb1]
            have hfind1 : s1.db.rows.find? (repoMatches repoUrl branch) =
                some ({ (repoOfInput s.db.nextId (mkCreateRepoInput repoUrl (if optTruthy branch && useWorktree then extractRepoName cfg.now repoUrl ++ "-" ++ sanitizeBranch (branch.getD "") else extractRepoName cfg.now repoUrl) branch (shouldUseWorktreeFlag useWorktree branch v) cfg.now)) with cloneStatus := "ready" }) := by
              rw [hrows1, find?_append_none _ _ _ hfind]
              rw [List.find?_cons_of_pos _ hp]
            rw [← hv, hveq]
            simp [cloneRepo, runBind, getRepoByUrlAndBranchM, hfind1, runPure]

/-- Witness for the idempotent short-circuit at a concrete store holding the row. -/
theorem claim_C3_idempotent_short_circuit_witness :
    cloneRepo cfg0 "https://example.com/app.git" none false envAllExists ⟨dbOne, []⟩ =
      (Except.ok row0, ⟨dbOne, []⟩) :=
  (claim_C3_idempotent_short_circuit cfg0 "https://example.com/app.git" none false).1
    envAllExists ⟨dbOne, []⟩ row0 (by rfl)

end OCM
